/-
Verification of the honeypot-auth behavioral risk-scoring engine.

Shallow embedding of the scoring and tracking code:
  * `BotDetector._calculateOverallScore`, `_calculateBotLikelihood`,
    `_analyzeForBotPatterns`, `_getBotStatusLabel`, `_detectHeadlessBrowser`
    (src/unnamed/part_002);
  * the `mousemove` ingestion handler of
    `MouseInteractionDetector._setupMouseTracking`
    (src/js/detectors/mouseInteraction.js);
  * `RemoteDesktopDetector._analyzeMouseMovement`
    (src/js/detectors/remoteDesktopDetector.js).

JavaScript numbers are modelled as rationals (ℚ).  Division by zero in ℚ
yields 0; every division the code performs on reachable data has a nonzero
denominator, and the theorems below never rely on the ℚ convention at a
zero denominator except where explicitly noted.  The irrational primitives
the code calls (`Math.sqrt`, `Math.atan2`, `Math.exp`) are abstracted as a
parameter record `Geom`; every theorem quantifies over the parameter, so it
holds in particular for the real-valued primitives restricted to the
rational inputs at hand.
-/
import Mathlib

namespace HoneypotAuth

/-! ## Abstracted irrational primitives -/

/-- Abstraction of the irrational numeric primitives used by the code:
`sqrtQ` stands for `Math.sqrt`, `angleDeg dy dx` for
`Math.atan2(dy, dx) * 180 / Math.PI`, and `expQ` for `Math.exp`. -/
structure Geom where
  sqrtQ : ℚ → ℚ
  angleDeg : ℚ → ℚ → ℚ
  expQ : ℚ → ℚ

/-- A concrete instantiation of `Geom` used to evaluate closed statements.
Wherever a closed theorem below uses it, every `sqrtQ` argument that occurs
during the computation is `1` (or the exact square of a rational), on which
`id` agrees with the real square root. -/
def geom0 : Geom := ⟨id, fun _ _ => 0, id⟩

/-- A pointer position `{x, y}`. -/
structure Pt where
  x : ℚ
  y : ℚ
deriving DecidableEq, Repr

/-! ## BotDetector: weighted score aggregator (part_002, lines 510-543)

`this.scoreWeights` (part_002, lines 79-88) maps each detection factor to
its weight.  `_calculateOverallScore` loops over `Object.entries(scoreWeights)`
in insertion order, accumulating `score * weight` and `weight` for every key
whose entry in `detectionScores` is defined, and then — in a separate block —
adds `eventTimingPatterns` once more when it is defined.  We model the
partial map `detectionScores` with `Option ℚ` fields. -/

/-- The eight detection factors of `this.scoreWeights`, in the insertion
order of the object literal (part_002, lines 79-88). -/
inductive Factor where
  | mousePatterns
  | headlessBrowser
  | fakeUserAgent
  | unusualResolution
  | rdpDetection
  | fingerprinting
  | apiFingerprint
  | eventTimingPatterns
deriving DecidableEq, Repr

/-- `this.scoreWeights` (part_002, lines 79-88). -/
def scoreWeight : Factor → ℚ
  | .mousePatterns => 1/4
  | .headlessBrowser => 3/20
  | .fakeUserAgent => 3/20
  | .unusualResolution => 1/10
  | .rdpDetection => 1/10
  | .fingerprinting => 3/20
  | .apiFingerprint => 1/10
  | .eventTimingPatterns => 3/20

/-- The state of `this.detectionScores`: one optional score per factor
(`none` models a JavaScript `undefined` entry) plus the stored
`overallScore` field. -/
structure DetectionScores where
  mousePatterns : Option ℚ := none
  headlessBrowser : Option ℚ := none
  fakeUserAgent : Option ℚ := none
  unusualResolution : Option ℚ := none
  rdpDetection : Option ℚ := none
  fingerprinting : Option ℚ := none
  apiFingerprint : Option ℚ := none
  eventTimingPatterns : Option ℚ := none
  overallScore : ℚ := 0
deriving DecidableEq, Repr

def getScore (ds : DetectionScores) : Factor → Option ℚ
  | .mousePatterns => ds.mousePatterns
  | .headlessBrowser => ds.headlessBrowser
  | .fakeUserAgent => ds.fakeUserAgent
  | .unusualResolution => ds.unusualResolution
  | .rdpDetection => ds.rdpDetection
  | .fingerprinting => ds.fingerprinting
  | .apiFingerprint => ds.apiFingerprint
  | .eventTimingPatterns => ds.eventTimingPatterns

def setScore (ds : DetectionScores) : Factor → Option ℚ → DetectionScores
  | .mousePatterns, v => { ds with mousePatterns := v }
  | .headlessBrowser, v => { ds with headlessBrowser := v }
  | .fakeUserAgent, v => { ds with fakeUserAgent := v }
  | .unusualResolution, v => { ds with unusualResolution := v }
  | .rdpDetection, v => { ds with rdpDetection := v }
  | .fingerprinting, v => { ds with fingerprinting := v }
  | .apiFingerprint, v => { ds with apiFingerprint := v }
  | .eventTimingPatterns, v => { ds with eventTimingPatterns := v }

/-- `Object.entries(this.scoreWeights)` iterates in insertion order. -/
def factorOrder : List Factor :=
  [.mousePatterns, .headlessBrowser, .fakeUserAgent, .unusualResolution,
   .rdpDetection, .fingerprinting, .apiFingerprint, .eventTimingPatterns]

/-- One iteration of the accumulation loop of `_calculateOverallScore`:
a defined score contributes `score * weight` to `weightedScore` and
`weight` to `totalWeight`, an undefined one contributes nothing. -/
def overallStep (acc : ℚ × ℚ) (p : Option ℚ × ℚ) : ℚ × ℚ :=
  match p.1 with
  | some v => (acc.1 + v * p.2, acc.2 + p.2)
  | none => acc

/-- The accumulation loop of `_calculateOverallScore`, starting from
`(weightedScore, totalWeight) = (0, 0)`. -/
def overallParts (l : List (Option ℚ × ℚ)) : ℚ × ℚ :=
  l.foldl overallStep (0, 0)

/-- The final normalization of `_calculateOverallScore`:
`totalWeight > 0 ? weightedScore / totalWeight : 0`. -/
def overallOf (l : List (Option ℚ × ℚ)) : ℚ :=
  let a := overallParts l
  if 0 < a.2 then a.1 / a.2 else 0

/-- The sequence of (score, weight) pairs `_calculateOverallScore` folds
over: the eight `Object.entries(this.scoreWeights)` entries followed by the
separate `eventTimingPatterns` block (part_002, lines 523-527), which adds
the same factor a second time when it is defined. -/
def scoreEntries (ds : DetectionScores) : List (Option ℚ × ℚ) :=
  factorOrder.map (fun f => (getScore ds f, scoreWeight f)) ++
    [(ds.eventTimingPatterns, scoreWeight .eventTimingPatterns)]

/-- `BotDetector._calculateOverallScore` (part_002, lines 510-543):
the accumulation loop over `scoreEntries` followed by
`totalWeight > 0 ? weightedScore / totalWeight : 0`. -/
def calculateOverallScore (ds : DetectionScores) : ℚ :=
  overallOf (scoreEntries ds)

/-- Modelled from the spec:
`evaluate(factorScores) → Σ(score_i · weight_i) / Σ(weight_i for i present)`,
factors absent from the input map excluded from numerator and denominator
alike (spec §4.4).  Each present factor is counted exactly once.  (`ℚ`
division by zero is 0, matching the code's 0 fallback for an empty map.) -/
def specOverallScore (ds : DetectionScores) : ℚ :=
  let a := overallParts (factorOrder.map (fun f => (getScore ds f, scoreWeight f)))
  a.1 / a.2

/-! ### Lemmas about the accumulation fold -/

/-- Numerator contribution of a single entry. -/
def entryNum (p : Option ℚ × ℚ) : ℚ :=
  match p.1 with
  | some v => v * p.2
  | none => 0

/-- Denominator contribution of a single entry. -/
def entryDen (p : Option ℚ × ℚ) : ℚ :=
  match p.1 with
  | some _ => p.2
  | none => 0

theorem foldl_overallStep (l : List (Option ℚ × ℚ)) (a : ℚ × ℚ) :
    l.foldl overallStep a = (a.1 + (l.map entryNum).sum, a.2 + (l.map entryDen).sum) := by
  induction l generalizing a with
  | nil => simp
  | cons h t ih =>
    rcases h with ⟨s, w⟩
    cases s with
    | none => simp [overallStep, ih, entryNum, entryDen]
    | some v =>
      simp only [List.foldl_cons, overallStep, ih, List.map_cons, List.sum_cons,
        entryNum, entryDen, Prod.mk.injEq]
      constructor <;> ring

theorem overallParts_eq (l : List (Option ℚ × ℚ)) :
    overallParts l = ((l.map entryNum).sum, (l.map entryDen).sum) := by
  simp [overallParts, foldl_overallStep]

theorem entry_bounds (l : List (Option ℚ × ℚ))
    (h : ∀ p ∈ l, 0 ≤ p.2 ∧ ∀ v, p.1 = some v → 0 ≤ v ∧ v ≤ 1) :
    0 ≤ (l.map entryNum).sum ∧ (l.map entryNum).sum ≤ (l.map entryDen).sum ∧
      0 ≤ (l.map entryDen).sum := by
  induction l with
  | nil => simp
  | cons p t ih =>
    obtain ⟨hw, hs⟩ := h p (by simp)
    obtain ⟨ih1, ih2, ih3⟩ := ih (fun q hq => h q (by simp [hq]))
    rcases p with ⟨s, w⟩
    cases s with
    | none => simpa [entryNum, entryDen] using ⟨ih1, ih2, ih3⟩
    | some v =>
      obtain ⟨hv0, hv1⟩ := hs v rfl
      refine ⟨?_, ?_, ?_⟩ <;> simp only [List.map_cons, List.sum_cons, entryNum, entryDen]
      · exact add_nonneg (mul_nonneg hv0 hw) ih1
      · have : v * w ≤ w := by
          calc v * w ≤ 1 * w := mul_le_mul_of_nonneg_right hv1 hw
          _ = w := one_mul w
        linarith
      · linarith

theorem overallOf_bounds (l : List (Option ℚ × ℚ))
    (h : ∀ p ∈ l, 0 ≤ p.2 ∧ ∀ v, p.1 = some v → 0 ≤ v ∧ v ≤ 1) :
    0 ≤ overallOf l ∧ overallOf l ≤ 1 := by
  obtain ⟨h1, h2, h3⟩ := entry_bounds l h
  rw [overallOf, overallParts_eq]
  dsimp only
  split
  · rename_i hpos
    exact ⟨div_nonneg h1 (le_of_lt hpos), (div_le_one hpos).mpr h2⟩
  · exact ⟨le_refl 0, zero_le_one⟩

theorem overallOf_mono (l1 l2 : List (Option ℚ × ℚ)) (c v v' : ℚ)
    (hc : 0 ≤ c) (hv : v ≤ v') :
    overallOf (l1 ++ (some v, c) :: l2) ≤ overallOf (l1 ++ (some v', c) :: l2) := by
  rw [overallOf, overallOf, overallParts_eq, overallParts_eq]
  dsimp only
  have hden :
      ((l1 ++ (some v, c) :: l2).map entryDen).sum
        = ((l1 ++ (some v', c) :: l2).map entryDen).sum := by
    simp [entryDen]
  have hnum :
      ((l1 ++ (some v, c) :: l2).map entryNum).sum
        ≤ ((l1 ++ (some v', c) :: l2).map entryNum).sum := by
    simp only [List.map_append, List.map_cons, List.sum_append, List.sum_cons, entryNum]
    have := mul_le_mul_of_nonneg_right hv hc
    linarith
  rw [hden]
  split
  · rename_i hpos
    exact (div_le_div_iff_of_pos_right hpos).mpr hnum
  · exact le_refl 0

theorem scoreWeight_nonneg (f : Factor) : 0 ≤ scoreWeight f := by
  cases f <;> norm_num [scoreWeight]

theorem den_nonneg (l : List (Option ℚ × ℚ)) (h : ∀ p ∈ l, 0 ≤ p.2) :
    0 ≤ (l.map entryDen).sum := by
  induction l with
  | nil => simp
  | cons p t ih =>
    have hp := h p (by simp)
    have ht := ih (fun q hq => h q (by simp [hq]))
    have : 0 ≤ entryDen p := by
      rcases p with ⟨s, w⟩
      cases s with
      | none => simp [entryDen]
      | some _ => exact hp
    simp only [List.map_cons, List.sum_cons]
    linarith

theorem overallOf_eq_div (l : List (Option ℚ × ℚ)) (h : ∀ p ∈ l, 0 ≤ p.2) :
    overallOf l = (l.map entryNum).sum / (l.map entryDen).sum := by
  rw [overallOf, overallParts_eq]
  dsimp only
  split
  · rfl
  · rename_i hneg
    have h0 : (l.map entryDen).sum = 0 := le_antisymm (not_lt.mp hneg) (den_nonneg l h)
    rw [h0, div_zero]

theorem scoreEntries_weights (ds : DetectionScores) : ∀ p ∈ scoreEntries ds, 0 ≤ p.2 := by
  intro p hp
  simp only [scoreEntries, List.mem_append, List.mem_map, List.mem_singleton] at hp
  rcases hp with ⟨f, -, rfl⟩ | rfl
  · exact scoreWeight_nonneg f
  · exact scoreWeight_nonneg .eventTimingPatterns

/-! ### Claim theorems for the weighted aggregator -/

/-- The spec's Scenario C input: factor map
`{mousePatterns: 0.9, headlessIndicator: 1.0}` — the spec's
`headlessIndicator` is the code's `headlessBrowser` factor. -/
def scenarioC : DetectionScores :=
  { mousePatterns := some (9/10), headlessBrowser := some 1 }

/-- An input on which the code departs from the spec's formula:
`eventTimingPatterns` is present in the factor map. -/
def dsTiming : DetectionScores :=
  { mousePatterns := some 0, eventTimingPatterns := some 1 }

/-- C1 counterexample: on the factor map
`{mousePatterns: 0, eventTimingPatterns: 1}`, `_calculateOverallScore`
returns `(0·0.25 + 1·0.15 + 1·0.15) / (0.25 + 0.15 + 0.15) = 6/11 ≈ 0.545`,
because the loop over `Object.entries(this.scoreWeights)` already includes
`eventTimingPatterns` and the separate block at part_002 lines 523-527 adds
it a second time; the spec's formula
`Σ(score_i·weight_i) / Σ(weight_i present)` gives `0.15/0.40 = 3/8 = 0.375`. -/
theorem overallScore_double_counts_eventTiming :
    calculateOverallScore dsTiming ≠ specOverallScore dsTiming ∧
      calculateOverallScore dsTiming = 6/11 ∧ specOverallScore dsTiming = 3/8 := by
  have h1 : calculateOverallScore dsTiming = 6/11 := by
    norm_num [calculateOverallScore, overallOf, overallParts, scoreEntries, factorOrder,
      dsTiming, getScore, scoreWeight, overallStep]
  have h2 : specOverallScore dsTiming = 3/8 := by
    norm_num [specOverallScore, overallParts, factorOrder, dsTiming, getScore,
      scoreWeight, overallStep]
  refine ⟨?_, h1, h2⟩
  rw [h1, h2]
  norm_num

/-- C1 (amended): for every partial factor map in which
`eventTimingPatterns` is absent, `_calculateOverallScore` returns exactly
`Σ(score_i·weight_i) / Σ(weight_i for i present)`, factors absent from the
map excluded from numerator and denominator alike (when
`eventTimingPatterns` is present its term is counted twice in both sums);
in particular Scenario C yields `(0.9·0.25 + 1.0·0.15)/(0.25+0.15) = 15/16
= 0.9375`. -/
theorem overallScore_eq_weighted_average :
    (∀ ds : DetectionScores, ds.eventTimingPatterns = none →
        calculateOverallScore ds = specOverallScore ds) ∧
      calculateOverallScore scenarioC = 15/16 := by
  constructor
  · intro ds h
    rw [calculateOverallScore, overallOf_eq_div (scoreEntries ds) (scoreEntries_weights ds),
      scoreEntries, h, specOverallScore, overallParts_eq]
    simp [entryNum, entryDen]
  · norm_num [calculateOverallScore, overallOf, overallParts, scoreEntries, factorOrder,
      scenarioC, getScore, scoreWeight, overallStep]

/-- C1 witness: the amended equation applied to the Scenario C map, in
which `eventTimingPatterns` is absent. -/
theorem overallScore_eq_weighted_average_witness :
    calculateOverallScore scenarioC = specOverallScore scenarioC :=
  overallScore_eq_weighted_average.1 scenarioC rfl

/-- C2: whenever every factor score present in `detectionScores` lies in
`[0,1]`, the overall score computed by `_calculateOverallScore` lies in
`[0,1]` (the weights are nonnegative and the result is the 0-fallback or a
weighted average of the present scores). -/
theorem overallScore_in_unit_interval (ds : DetectionScores)
    (h : ∀ f v, getScore ds f = some v → 0 ≤ v ∧ v ≤ 1) :
    0 ≤ calculateOverallScore ds ∧ calculateOverallScore ds ≤ 1 := by
  apply overallOf_bounds
  intro p hp
  simp only [scoreEntries, List.mem_append, List.mem_map, List.mem_singleton] at hp
  rcases hp with ⟨f, -, rfl⟩ | rfl
  · exact ⟨scoreWeight_nonneg f, fun v hv => h f v hv⟩
  · exact ⟨scoreWeight_nonneg .eventTimingPatterns, fun v hv => h .eventTimingPatterns v hv⟩

/-- C8: increasing a single factor score, with all other factor scores and
all weights fixed, never decreases the overall score computed by
`_calculateOverallScore`: the factor's (positive) weight multiplies a larger
score in the numerator while the denominator is unchanged. -/
theorem overallScore_monotone (ds : DetectionScores) (f : Factor) (v v' : ℚ)
    (hv : v ≤ v') :
    calculateOverallScore (setScore ds f (some v))
      ≤ calculateOverallScore (setScore ds f (some v')) := by
  have unfold1 :
      ∀ w, scoreEntries (setScore ds .eventTimingPatterns (some w))
        = [(ds.mousePatterns, 1/4), (ds.headlessBrowser, 3/20), (ds.fakeUserAgent, 3/20),
           (ds.unusualResolution, 1/10), (ds.rdpDetection, 1/10), (ds.fingerprinting, 3/20),
           (ds.apiFingerprint, 1/10)] ++ (some w, 3/20) :: [(some w, 3/20)] := by
    intro w
    simp [scoreEntries, factorOrder, getScore, setScore, scoreWeight]
  cases f with
  | mousePatterns =>
    have h := overallOf_mono []
      [(ds.headlessBrowser, 3/20), (ds.fakeUserAgent, 3/20), (ds.unusualResolution, 1/10),
       (ds.rdpDetection, 1/10), (ds.fingerprinting, 3/20), (ds.apiFingerprint, 1/10),
       (ds.eventTimingPatterns, 3/20), (ds.eventTimingPatterns, 3/20)]
      (1/4) v v' (by norm_num) hv
    simpa [calculateOverallScore, scoreEntries, factorOrder, getScore, setScore,
      scoreWeight] using h
  | headlessBrowser =>
    have h := overallOf_mono [(ds.mousePatterns, 1/4)]
      [(ds.fakeUserAgent, 3/20), (ds.unusualResolution, 1/10),
       (ds.rdpDetection, 1/10), (ds.fingerprinting, 3/20), (ds.apiFingerprint, 1/10),
       (ds.eventTimingPatterns, 3/20), (ds.eventTimingPatterns, 3/20)]
      (3/20) v v' (by norm_num) hv
    simpa [calculateOverallScore, scoreEntries, factorOrder, getScore, setScore,
      scoreWeight] using h
  | fakeUserAgent =>
    have h := overallOf_mono [(ds.mousePatterns, 1/4), (ds.headlessBrowser, 3/20)]
      [(ds.unusualResolution, 1/10),
       (ds.rdpDetection, 1/10), (ds.fingerprinting, 3/20), (ds.apiFingerprint, 1/10),
       (ds.eventTimingPatterns, 3/20), (ds.eventTimingPatterns, 3/20)]
      (3/20) v v' (by norm_num) hv
    simpa [calculateOverallScore, scoreEntries, factorOrder, getScore, setScore,
      scoreWeight] using h
  | unusualResolution =>
    have h := overallOf_mono
      [(ds.mousePatterns, 1/4), (ds.headlessBrowser, 3/20), (ds.fakeUserAgent, 3/20)]
      [(ds.rdpDetection, 1/10), (ds.fingerprinting, 3/20), (ds.apiFingerprint, 1/10),
       (ds.eventTimingPatterns, 3/20), (ds.eventTimingPatterns, 3/20)]
      (1/10) v v' (by norm_num) hv
    simpa [calculateOverallScore, scoreEntries, factorOrder, getScore, setScore,
      scoreWeight] using h
  | rdpDetection =>
    have h := overallOf_mono
      [(ds.mousePatterns, 1/4), (ds.headlessBrowser, 3/20), (ds.fakeUserAgent, 3/20),
       (ds.unusualResolution, 1/10)]
      [(ds.fingerprinting, 3/20), (ds.apiFingerprint, 1/10),
       (ds.eventTimingPatterns, 3/20), (ds.eventTimingPatterns, 3/20)]
      (1/10) v v' (by norm_num) hv
    simpa [calculateOverallScore, scoreEntries, factorOrder, getScore, setScore,
      scoreWeight] using h
  | fingerprinting =>
    have h := overallOf_mono
      [(ds.mousePatterns, 1/4), (ds.headlessBrowser, 3/20), (ds.fakeUserAgent, 3/20),
       (ds.unusualResolution, 1/10), (ds.rdpDetection, 1/10)]
      [(ds.apiFingerprint, 1/10),
       (ds.eventTimingPatterns, 3/20), (ds.eventTimingPatterns, 3/20)]
      (3/20) v v' (by norm_num) hv
    simpa [calculateOverallScore, scoreEntries, factorOrder, getScore, setScore,
      scoreWeight] using h
  | apiFingerprint =>
    have h := overallOf_mono
      [(ds.mousePatterns, 1/4), (ds.headlessBrowser, 3/20), (ds.fakeUserAgent, 3/20),
       (ds.unusualResolution, 1/10), (ds.rdpDetection, 1/10), (ds.fingerprinting, 3/20)]
      [(ds.eventTimingPatterns, 3/20), (ds.eventTimingPatterns, 3/20)]
      (1/10) v v' (by norm_num) hv
    simpa [calculateOverallScore, scoreEntries, factorOrder, getScore, setScore,
      scoreWeight] using h
  | eventTimingPatterns =>
    calc calculateOverallScore (setScore ds .eventTimingPatterns (some v))
        = overallOf
            ([(ds.mousePatterns, 1/4), (ds.headlessBrowser, 3/20), (ds.fakeUserAgent, 3/20),
              (ds.unusualResolution, 1/10), (ds.rdpDetection, 1/10), (ds.fingerprinting, 3/20),
              (ds.apiFingerprint, 1/10)] ++ (some v, 3/20) :: [(some v, 3/20)]) := by
          rw [calculateOverallScore, unfold1]
      _ ≤ overallOf
            ([(ds.mousePatterns, 1/4), (ds.headlessBrowser, 3/20), (ds.fakeUserAgent, 3/20),
              (ds.unusualResolution, 1/10), (ds.rdpDetection, 1/10), (ds.fingerprinting, 3/20),
              (ds.apiFingerprint, 1/10)] ++ (some v', 3/20) :: [(some v, 3/20)]) :=
          overallOf_mono _ _ _ _ _ (by norm_num) hv
      _ = overallOf
            (([(ds.mousePatterns, 1/4), (ds.headlessBrowser, 3/20), (ds.fakeUserAgent, 3/20),
               (ds.unusualResolution, 1/10), (ds.rdpDetection, 1/10), (ds.fingerprinting, 3/20),
               (ds.apiFingerprint, 1/10)] ++ [(some v', 3/20)]) ++ (some v, 3/20) :: []) := by
          simp
      _ ≤ overallOf
            (([(ds.mousePatterns, 1/4), (ds.headlessBrowser, 3/20), (ds.fakeUserAgent, 3/20),
               (ds.unusualResolution, 1/10), (ds.rdpDetection, 1/10), (ds.fingerprinting, 3/20),
               (ds.apiFingerprint, 1/10)] ++ [(some v', 3/20)]) ++ (some v', 3/20) :: []) :=
          overallOf_mono _ _ _ _ _ (by norm_num) hv
      _ = calculateOverallScore (setScore ds .eventTimingPatterns (some v')) := by
          rw [calculateOverallScore, unfold1]
          simp

/-- C8 witness: raising the `mousePatterns` score from `0.5` to `0.75` on
the Scenario C map does not decrease the overall score. -/
theorem overallScore_monotone_witness :
    calculateOverallScore (setScore scenarioC .mousePatterns (some (1/2)))
      ≤ calculateOverallScore (setScore scenarioC .mousePatterns (some (3/4))) :=
  overallScore_monotone scenarioC .mousePatterns (1/2) (3/4) (by norm_num)

/-- C2 witness: the bound applied to the Scenario C factor map. -/
theorem overallScore_in_unit_interval_witness :
    0 ≤ calculateOverallScore scenarioC ∧ calculateOverallScore scenarioC ≤ 1 :=
  overallScore_in_unit_interval scenarioC (by
    intro f v hv
    cases f <;> cases hv <;> norm_num)

/-! ## BotDetector: classifier (part_002, lines 548-563)

`_getBotStatusLabel(score)` first checks
`this.mouseData.movements < this.thresholds.minimumSamples` (20), then maps
the score through the ordered thresholds `botScoreThreshold = 0.7`,
`suspiciousScoreThreshold = 0.5`, `humanScoreThreshold = 0.3`
(part_002, lines 61-76).  `_analyzeAndUpdateResults` (lines 148-153)
likewise returns before computing any score when
`movements < minimumSamples`. -/

/-- `this.thresholds.minimumSamples` (part_002, line 62). -/
def minimumSamples : ℕ := 20

/-- The five human-readable statuses returned by `_getBotStatusLabel`. -/
inductive BotStatus where
  | insufficientData
  | likelyHuman
  | unusualPatterns
  | suspiciousPatterns
  | likelyBot
deriving DecidableEq, Repr

/-- `BotDetector._getBotStatusLabel` (part_002, lines 548-563). -/
def getBotStatusLabel (movements : ℕ) (score : ℚ) : BotStatus :=
  if movements < minimumSamples then .insufficientData
  else if 7/10 ≤ score then .likelyBot
  else if 1/2 ≤ score then .suspiciousPatterns
  else if 3/10 ≤ score then .unusualPatterns
  else .likelyHuman

/-- C7: with at least `minimumSamples` movements collected, the label is
determined by ordered, non-overlapping score intervals — `s < 0.3` is
likely-human, `0.3 ≤ s < 0.5` unusual, `0.5 ≤ s < 0.7` suspicious and
`0.7 ≤ s` likely-bot — so exactly one bucket applies; with fewer than
`minimumSamples` movements the classifier reports only insufficient data,
whatever the score. -/
theorem botStatusLabel_buckets (movements : ℕ) (s : ℚ) (h0 : 0 ≤ s) (h1 : s ≤ 1) :
    (minimumSamples ≤ movements →
      ((getBotStatusLabel movements s = .likelyHuman ↔ s < 3/10) ∧
       (getBotStatusLabel movements s = .unusualPatterns ↔ 3/10 ≤ s ∧ s < 1/2) ∧
       (getBotStatusLabel movements s = .suspiciousPatterns ↔ 1/2 ≤ s ∧ s < 7/10) ∧
       (getBotStatusLabel movements s = .likelyBot ↔ 7/10 ≤ s))) ∧
    (movements < minimumSamples → getBotStatusLabel movements s = .insufficientData) := by
  constructor
  · intro hm
    have hnm : ¬ movements < minimumSamples := not_lt.mpr hm
    rw [getBotStatusLabel, if_neg hnm]
    split
    · rename_i hbot
      refine ⟨?_, ?_, ?_, ?_⟩ <;> constructor <;> intro hx
      · exact absurd hx (by simp)
      · linarith
      · exact absurd hx (by simp)
      · linarith [hx.2]
      · exact absurd hx (by simp)
      · linarith [hx.2]
      · exact hbot
      · rfl
    · rename_i hbot
      split
      · rename_i hsus
        refine ⟨?_, ?_, ?_, ?_⟩ <;> constructor <;> intro hx
        · exact absurd hx (by simp)
        · linarith
        · exact absurd hx (by simp)
        · linarith [hx.2]
        · exact ⟨hsus, lt_of_not_le hbot⟩
        · rfl
        · exact absurd hx (by simp)
        · exact absurd hx hbot
      · rename_i hsus
        split
        · rename_i hunu
          refine ⟨?_, ?_, ?_, ?_⟩ <;> constructor <;> intro hx
          · exact absurd hx (by simp)
          · linarith
          · exact ⟨hunu, lt_of_not_le hsus⟩
          · rfl
          · exact absurd hx (by simp)
          · exact absurd hx.1 hsus
          · exact absurd hx (by simp)
          · exact absurd hx hbot
        · rename_i hunu
          refine ⟨?_, ?_, ?_, ?_⟩ <;> constructor <;> intro hx
          · exact lt_of_not_le hunu
          · rfl
          · exact absurd hx (by simp)
          · exact absurd hx.1 hunu
          · exact absurd hx (by simp)
          · exact absurd hx.1 hsus
          · exact absurd hx (by simp)
          · exact absurd hx hbot
  · intro hm
    rw [getBotStatusLabel, if_pos hm]

/-- C7 witness: at 25 movements and score `0.6` the theorem yields the
suspicious bucket; at 5 movements it yields insufficient data. -/
theorem botStatusLabel_buckets_witness :
    getBotStatusLabel 25 (3/5) = .suspiciousPatterns ∧
      getBotStatusLabel 5 (3/5) = .insufficientData := by
  have h := botStatusLabel_buckets 25 (3/5) (by norm_num) (by norm_num)
  have h5 := botStatusLabel_buckets 5 (3/5) (by norm_num) (by norm_num)
  refine ⟨?_, h5.2 (by norm_num [minimumSamples])⟩
  exact (h.1 (by norm_num [minimumSamples])).2.2.1.mpr (by norm_num)

/-! ## BotDetector: headless-browser evaluator (part_002, lines 568-638)

`_detectHeadlessBrowser` runs five tests.  Tests 1, 2, 3 and 5 always
increment `testsRun`; test 4 increments it only when `navigator.permissions`
exists, and its 0.7 score contribution arrives in the promise callback
(lines 604-615), which recomputes `min(1, headlessScore / testsRun)` with
the already-final `testsRun` and the score accumulated so far.  The model
below computes that final value; the whole body is wrapped in `try/catch`,
so the evaluator never raises (the model is a total function). -/

/-- The environment attributes `_detectHeadlessBrowser` consults:
whether the user agent matches the headless regex, `navigator.webdriver`,
a Chrome user agent without `window.chrome`, availability of
`navigator.permissions`, the denied/default permissions inconsistency, and
`navigator.plugins.length === 0`. -/
structure HeadlessEnv where
  uaHeadless : Bool
  webdriver : Bool
  chromeUAWithoutChrome : Bool
  permissionsAvailable : Bool
  permissionInconsistent : Bool
  noPlugins : Bool
deriving DecidableEq, Repr

/-- `BotDetector._detectHeadlessBrowser` (part_002, lines 568-638), as the
final value of `this.detectionScores.headlessBrowser` once the permissions
promise (if any) has resolved. -/
def detectHeadlessScore (env : HeadlessEnv) : ℚ :=
  let testsRun : ℚ := 0
  let score : ℚ := 0
  -- Test 1: user agent contains headless indicators
  let testsRun := testsRun + 1
  let score := if env.uaHeadless then score + 1 else score
  -- Test 2: navigator.webdriver is true
  let testsRun := testsRun + 1
  let score := if env.webdriver then score + 1 else score
  -- Test 3: Chrome user agent without chrome object
  let testsRun := testsRun + 1
  let score := if env.chromeUAWithoutChrome then score + 4/5 else score
  -- Test 4: counted among testsRun only when navigator.permissions exists
  let testsRun := if env.permissionsAvailable then testsRun + 1 else testsRun
  -- Test 5: no plugins detected
  let testsRun := testsRun + 1
  let score := if env.noPlugins then score + 3/10 else score
  -- asynchronous resolution of test 4 (lines 604-615)
  let score :=
    if env.permissionsAvailable && env.permissionInconsistent then score + 7/10 else score
  min 1 (score / testsRun)

/-- Modelled from the spec (§4.3): a battery of tests, each given as
`(applicable, triggered, weight)`; the evaluator score is the sum of the
weights of the triggered tests divided by the number of tests actually run,
capped at 1.0, where a test whose required capability is absent is excluded
from numerator and denominator alike. -/
def specEvaluatorScore (tests : List (Bool × Bool × ℚ)) : ℚ :=
  let run := tests.filter (fun t => t.1)
  let triggered := (run.filter (fun t => t.2.1)).map (fun t => t.2.2)
  min 1 (triggered.sum / (run.length : ℚ))

/-- The five headless tests with their applicability conditions, trigger
conditions and weights, read off part_002 lines 576-623. -/
def headlessTests (env : HeadlessEnv) : List (Bool × Bool × ℚ) :=
  [(true, env.uaHeadless, 1),
   (true, env.webdriver, 1),
   (true, env.chromeUAWithoutChrome, 4/5),
   (env.permissionsAvailable, env.permissionsAvailable && env.permissionInconsistent, 7/10),
   (true, env.noPlugins, 3/10)]

/-- C6: for every combination of environment attributes, the headless
evaluator's score equals the sum of the weights of the triggered tests
divided by the number of tests actually run, capped at 1.0; the permissions
test, whose capability may be absent, then counts in neither numerator nor
denominator.  (Totality of the model reflects the `try/catch`: no input
raises.) -/
theorem headlessScore_eq_spec_formula (env : HeadlessEnv) :
    detectHeadlessScore env = specEvaluatorScore (headlessTests env) := by
  rcases env with ⟨a, b, c, d, e, f⟩
  cases a <;> cases b <;> cases c <;> cases d <;> cases e <;> cases f <;>
    norm_num [detectHeadlessScore, specEvaluatorScore, headlessTests, min_def]

/-! ## MouseInteractionDetector: the `mousemove` ingestion handler
(src/js/detectors/mouseInteraction.js, lines 130-263)

The handler mutates `this.mouseData` in this order: duplicate-position
drop; movement count and position statistics; inter-arrival time; velocity,
angle, acceleration, velocity-consistency and the collinearity counters
(all computed against the previous *stored* sample, before the new one is
pushed); push of position and timestamp; capacity eviction (cap 200,
`shift()` = drop of the oldest); viewport marking.  The periodic
`_analyzeRemoteAccessPatterns` call at the end writes only
`remoteAccessScore` and `remoteSuspicionReasons`, neither of which is part
of this state, so it is not modelled.  JavaScript's `±Infinity`
initialisation of the min/max statistics is modelled with `Option ℚ`
(`none` = still at `±Infinity`). -/

/-- One `mousemove` event: `clientX`, `clientY` and the `Date.now()`
timestamp. -/
structure MIEvent where
  x : ℚ
  y : ℚ
  t : ℚ
deriving DecidableEq, Repr

/-- `this.mouseData` of `MouseInteractionDetector`, restricted to the
fields the `mousemove` handler touches (clicks, scrolls and the remote
score are updated elsewhere). -/
structure MIState where
  movements : ℕ := 0
  positions : List Pt := []
  timestamps : List ℚ := []
  minX : Option ℚ := none
  maxX : Option ℚ := none
  minY : Option ℚ := none
  maxY : Option ℚ := none
  sumX : ℚ := 0
  sumY : ℚ := 0
  velocities : List ℚ := []
  minVelocity : Option ℚ := none
  maxVelocity : Option ℚ := none
  sumVelocity : ℚ := 0
  lastMovementTime : ℚ := 0
  timeBetweenMovements : List ℚ := []
  minTimeBetween : Option ℚ := none
  maxTimeBetween : Option ℚ := none
  sumTimeBetween : ℚ := 0
  straightLineSegments : ℕ := 0
  curvedLineSegments : ℕ := 0
  velocityConsistencyScores : List ℚ := []
  accelerationPatterns : List ℚ := []
  movementAngles : List ℚ := []
  isMouseInViewport : Bool := false
  mouseEntryCount : ℕ := 0
  viewportEntryTime : ℚ := 0
deriving DecidableEq, Repr

/-- The initial `mouseData` object (mouseInteraction.js, lines 13-52). -/
def miInit : MIState := {}

/-- `Math.min` against a possibly-still-`Infinity` running minimum. -/
def qminO (o : Option ℚ) (x : ℚ) : Option ℚ :=
  some (match o with | none => x | some m => min m x)

/-- `Math.max` against a possibly-still-`-Infinity` running maximum. -/
def qmaxO (o : Option ℚ) (x : ℚ) : Option ℚ :=
  some (match o with | none => x | some m => max m x)

/-- Squared euclidean distance between two points. -/
def d2 (p q : Pt) : ℚ := (q.x - p.x)^2 + (q.y - p.y)^2

/-- Twice the signed triangle area:
`p1.x*(p2.y-p3.y) + p2.x*(p3.y-p1.y) + p3.x*(p1.y-p2.y)`
(mouseInteraction.js, line 223, before the `/2`). -/
def triCross (p1 p2 p3 : Pt) : ℚ :=
  p1.x * (p2.y - p3.y) + p2.x * (p3.y - p1.y) + p3.x * (p1.y - p2.y)

/-- The collinearity test of mouseInteraction.js lines 223-228:
`area < Math.max(distance12, distance23) * 0.1` where
`area = |triCross|/2` and the distances are square roots of `d2`.  Both
sides are nonnegative, so the comparison is equivalent to its square,
`25 * triCross² < max (d2 p1 p2) (d2 p2 p3)`, which is rational and
therefore used as the executable definition; `collinearCode_iff_area`
proves the equivalence with the code's real-number comparison. -/
def isCollinearCode (p1 p2 p3 : Pt) : Bool :=
  25 * (triCross p1 p2 p3)^2 < max (d2 p1 p2) (d2 p2 p3)

/-- Modelled from the spec: `classify as collinear when area falls below a
threshold scaled by segment length, and displacement exceeds a
minimum-movement floor (filters sub-pixel noise)`.  The floor is left as a
parameter; a floor that filters sub-pixel noise satisfies `1 ≤ floor`.  The
displacement of the classified event is the incoming segment `p2 p3`,
compared squared. -/
def specCollinear (floor : ℚ) (p1 p2 p3 : Pt) : Bool :=
  isCollinearCode p1 p2 p3 && decide (floor^2 < d2 p2 p3)

/-- The duplicate-position drop (mouseInteraction.js, lines 134-140): an
event is processed only when there is no stored position or the last stored
position differs from the event's. -/
def accepts (s : MIState) (e : MIEvent) : Bool :=
  match s.positions.getLast? with
  | some lp => if lp.x = e.x ∧ lp.y = e.y then false else true
  | none => true

/-- Movement count and position statistics (lines 142-151). -/
def updPosStats (s : MIState) (e : MIEvent) : MIState :=
  { s with movements := s.movements + 1,
           minX := qminO s.minX e.x, maxX := qmaxO s.maxX e.x,
           minY := qminO s.minY e.y, maxY := qmaxO s.maxY e.y,
           sumX := s.sumX + e.x, sumY := s.sumY + e.y }

/-- Inter-arrival time recording and `lastMovementTime` update
(lines 153-167): the time difference is pushed only when
`lastMovementTime > 0` and the difference is strictly positive. -/
def updTimeBetween (s : MIState) (e : MIEvent) : MIState :=
  let s' :=
    if 0 < s.lastMovementTime ∧ 0 < e.t - s.lastMovementTime then
      let td := e.t - s.lastMovementTime
      { s with timeBetweenMovements := s.timeBetweenMovements ++ [td],
               minTimeBetween := qminO s.minTimeBetween td,
               maxTimeBetween := qmaxO s.maxTimeBetween td,
               sumTimeBetween := s.sumTimeBetween + td }
    else s
  { s' with lastMovementTime := e.t }

/-- Velocity, angle, acceleration, velocity-consistency and collinearity
analysis against the previous stored sample (lines 169-234).  The angle is
pushed before the `timeDelta > 0` check (lines 180-181); the collinearity
triple is `positions[len-3]`, `positions[len-2]` and the *incoming* point
(lines 216-219), all read before the new sample is stored. -/
def updDerived (g : Geom) (s : MIState) (e : MIEvent) : MIState :=
  match s.positions.getLast?, s.timestamps.getLast? with
  | some pp, some pt =>
    let dx := e.x - pp.x
    let dy := e.y - pp.y
    let dist := g.sqrtQ (dx^2 + dy^2)
    let s1 : MIState := { s with movementAngles := s.movementAngles ++ [g.angleDeg dy dx] }
    let td := e.t - pt
    let s2 : MIState :=
      if 0 < td then
        let v := dist / td
        let sv : MIState := { s1 with velocities := s1.velocities ++ [v],
                                      minVelocity := qminO s1.minVelocity v,
                                      maxVelocity := qmaxO s1.maxVelocity v,
                                      sumVelocity := s1.sumVelocity + v }
        let sa : MIState :=
          if 1 < sv.velocities.length then
            { sv with accelerationPatterns := sv.accelerationPatterns
                ++ [(v - sv.velocities.getD (sv.velocities.length - 2) 0) / td] }
          else sv
        if 2 < sa.velocities.length then
          let hist := sa.velocities.drop (sa.velocities.length - 3)
          let avg := hist.sum / (hist.length : ℚ)
          let varr := (hist.map (fun w => (w - avg)^2)).sum / (hist.length : ℚ)
          { sa with velocityConsistencyScores :=
              sa.velocityConsistencyScores ++ [g.expQ (-10 * varr)] }
        else sa
      else s1
    if 2 < s2.positions.length then
      let p1 := s2.positions.getD (s2.positions.length - 3) ⟨0, 0⟩
      let p2 := s2.positions.getD (s2.positions.length - 2) ⟨0, 0⟩
      if isCollinearCode p1 p2 ⟨e.x, e.y⟩ then
        { s2 with straightLineSegments := s2.straightLineSegments + 1 }
      else
        { s2 with curvedLineSegments := s2.curvedLineSegments + 1 }
    else s2
  | _, _ => s

/-- Storing the new sample (lines 236-238). -/
def updStore (s : MIState) (e : MIEvent) : MIState :=
  { s with positions := s.positions ++ [⟨e.x, e.y⟩],
           timestamps := s.timestamps ++ [e.t] }

/-- A single conditional `shift()` of one parallel list (lines 245-249). -/
def capList (l : List ℚ) : List ℚ :=
  if 200 < l.length then l.tail else l

/-- Capacity eviction with `maxSamples = 200` (lines 240-250): when the
positions list exceeds the cap, positions and timestamps are shifted
unconditionally and each parallel list is shifted when it itself exceeds
the cap. -/
def updCap (s : MIState) : MIState :=
  if 200 < s.positions.length then
    { s with positions := s.positions.tail, timestamps := s.timestamps.tail,
             velocities := capList s.velocities,
             timeBetweenMovements := capList s.timeBetweenMovements,
             velocityConsistencyScores := capList s.velocityConsistencyScores,
             accelerationPatterns := capList s.accelerationPatterns,
             movementAngles := capList s.movementAngles }
  else s

/-- Viewport marking (lines 252-257); the code's second `Date.now()` call
is modelled as the event timestamp. -/
def updViewport (s : MIState) (e : MIEvent) : MIState :=
  if s.isMouseInViewport then s
  else { s with isMouseInViewport := true,
                mouseEntryCount := s.mouseEntryCount + 1,
                viewportEntryTime := e.t }

/-- The whole accepted-event body of the `mousemove` handler. -/
def miIngest (g : Geom) (s : MIState) (e : MIEvent) : MIState :=
  updViewport (updCap (updStore (updDerived g (updTimeBetween (updPosStats s e) e) e) e)) e

/-- The `mousemove` handler: drop duplicates, otherwise ingest. -/
def miStep (g : Geom) (s : MIState) (e : MIEvent) : MIState :=
  if accepts s e then miIngest g s e else s

/-- Folding the handler over an event sequence from the initial state. -/
def miRun (g : Geom) (evs : List MIEvent) : MIState :=
  evs.foldl (miStep g) miInit

/-! ### Field-tracking lemmas for the ingestion phases -/

@[simp] theorem updPosStats_positions (s : MIState) (e : MIEvent) :
    (updPosStats s e).positions = s.positions := rfl

@[simp] theorem updPosStats_timestamps (s : MIState) (e : MIEvent) :
    (updPosStats s e).timestamps = s.timestamps := rfl

@[simp] theorem updPosStats_velocities (s : MIState) (e : MIEvent) :
    (updPosStats s e).velocities = s.velocities := rfl

@[simp] theorem updPosStats_tb (s : MIState) (e : MIEvent) :
    (updPosStats s e).timeBetweenMovements = s.timeBetweenMovements := rfl

@[simp] theorem updPosStats_angles (s : MIState) (e : MIEvent) :
    (updPosStats s e).movementAngles = s.movementAngles := rfl

@[simp] theorem updPosStats_accel (s : MIState) (e : MIEvent) :
    (updPosStats s e).accelerationPatterns = s.accelerationPatterns := rfl

@[simp] theorem updPosStats_vcs (s : MIState) (e : MIEvent) :
    (updPosStats s e).velocityConsistencyScores = s.velocityConsistencyScores := rfl

@[simp] theorem updPosStats_lastTime (s : MIState) (e : MIEvent) :
    (updPosStats s e).lastMovementTime = s.lastMovementTime := rfl

@[simp] theorem updPosStats_straight (s : MIState) (e : MIEvent) :
    (updPosStats s e).straightLineSegments = s.straightLineSegments := rfl

@[simp] theorem updPosStats_curved (s : MIState) (e : MIEvent) :
    (updPosStats s e).curvedLineSegments = s.curvedLineSegments := rfl

theorem updTimeBetween_tb (s : MIState) (e : MIEvent) :
    (updTimeBetween s e).timeBetweenMovements =
      if 0 < s.lastMovementTime ∧ 0 < e.t - s.lastMovementTime then
        s.timeBetweenMovements ++ [e.t - s.lastMovementTime]
      else s.timeBetweenMovements := by
  simp only [updTimeBetween]
  split <;> rfl

@[simp] theorem updTimeBetween_positions (s : MIState) (e : MIEvent) :
    (updTimeBetween s e).positions = s.positions := by
  simp only [updTimeBetween]; split <;> rfl

@[simp] theorem updTimeBetween_timestamps (s : MIState) (e : MIEvent) :
    (updTimeBetween s e).timestamps = s.timestamps := by
  simp only [updTimeBetween]; split <;> rfl

@[simp] theorem updTimeBetween_velocities (s : MIState) (e : MIEvent) :
    (updTimeBetween s e).velocities = s.velocities := by
  simp only [updTimeBetween]; split <;> rfl

@[simp] theorem updTimeBetween_angles (s : MIState) (e : MIEvent) :
    (updTimeBetween s e).movementAngles = s.movementAngles := by
  simp only [updTimeBetween]; split <;> rfl

@[simp] theorem updTimeBetween_accel (s : MIState) (e : MIEvent) :
    (updTimeBetween s e).accelerationPatterns = s.accelerationPatterns := by
  simp only [updTimeBetween]; split <;> rfl

@[simp] theorem updTimeBetween_vcs (s : MIState) (e : MIEvent) :
    (updTimeBetween s e).velocityConsistencyScores = s.velocityConsistencyScores := by
  simp only [updTimeBetween]; split <;> rfl

@[simp] theorem updTimeBetween_straight (s : MIState) (e : MIEvent) :
    (updTimeBetween s e).straightLineSegments = s.straightLineSegments := by
  simp only [updTimeBetween]; split <;> rfl

@[simp] theorem updTimeBetween_curved (s : MIState) (e : MIEvent) :
    (updTimeBetween s e).curvedLineSegments = s.curvedLineSegments := by
  simp only [updTimeBetween]; split <;> rfl

theorem updDerived_positions (g : Geom) (s : MIState) (e : MIEvent) :
    (updDerived g s e).positions = s.positions := by
  cases hp : s.positions.getLast? with
  | none => simp [updDerived, hp]
  | some pp =>
    cases ht : s.timestamps.getLast? with
    | none => simp [updDerived, hp, ht]
    | some pt =>
      simp only [updDerived, hp, ht]
      split_ifs <;> rfl

theorem updDerived_timestamps (g : Geom) (s : MIState) (e : MIEvent) :
    (updDerived g s e).timestamps = s.timestamps := by
  cases hp : s.positions.getLast? with
  | none => simp [updDerived, hp]
  | some pp =>
    cases ht : s.timestamps.getLast? with
    | none => simp [updDerived, hp, ht]
    | some pt =>
      simp only [updDerived, hp, ht]
      split_ifs <;> rfl

theorem updDerived_tb (g : Geom) (s : MIState) (e : MIEvent) :
    (updDerived g s e).timeBetweenMovements = s.timeBetweenMovements := by
  cases hp : s.positions.getLast? with
  | none => simp [updDerived, hp]
  | some pp =>
    cases ht : s.timestamps.getLast? with
    | none => simp [updDerived, hp, ht]
    | some pt =>
      simp only [updDerived, hp, ht]
      split_ifs <;> rfl

theorem updDerived_angles_some (g : Geom) (s : MIState) (e : MIEvent) (pp : Pt) (pt : ℚ)
    (hp : s.positions.getLast? = some pp) (ht : s.timestamps.getLast? = some pt) :
    (updDerived g s e).movementAngles
      = s.movementAngles ++ [g.angleDeg (e.y - pp.y) (e.x - pp.x)] := by
  simp only [updDerived, hp, ht]
  split_ifs <;> rfl

theorem updDerived_velocities_some (g : Geom) (s : MIState) (e : MIEvent) (pp : Pt) (pt : ℚ)
    (hp : s.positions.getLast? = some pp) (ht : s.timestamps.getLast? = some pt) :
    (updDerived g s e).velocities =
      if 0 < e.t - pt then
        s.velocities ++ [g.sqrtQ ((e.x - pp.x)^2 + (e.y - pp.y)^2) / (e.t - pt)]
      else s.velocities := by
  simp only [updDerived, hp, ht]
  split_ifs <;> rfl

theorem updDerived_none_pos (g : Geom) (s : MIState) (e : MIEvent)
    (hp : s.positions.getLast? = none) : updDerived g s e = s := by
  simp [updDerived, hp]

theorem updDerived_none_ts (g : Geom) (s : MIState) (e : MIEvent)
    (ht : s.timestamps.getLast? = none) : updDerived g s e = s := by
  cases hp : s.positions.getLast? <;> simp [updDerived, hp, ht]

theorem updDerived_vel_le (g : Geom) (s : MIState) (e : MIEvent) :
    (updDerived g s e).velocities.length ≤ s.velocities.length + 1 := by
  cases hp : s.positions.getLast? with
  | none => simp [updDerived_none_pos g s e hp]
  | some pp =>
    cases ht : s.timestamps.getLast? with
    | none => simp [updDerived_none_ts g s e ht]
    | some pt =>
      rw [updDerived_velocities_some g s e pp pt hp ht]
      split <;> simp

theorem updDerived_angles_le (g : Geom) (s : MIState) (e : MIEvent) :
    (updDerived g s e).movementAngles.length ≤ s.movementAngles.length + 1 := by
  cases hp : s.positions.getLast? with
  | none => simp [updDerived_none_pos g s e hp]
  | some pp =>
    cases ht : s.timestamps.getLast? with
    | none => simp [updDerived_none_ts g s e ht]
    | some pt =>
      rw [updDerived_angles_some g s e pp pt hp ht]
      simp

theorem updDerived_accel_le (g : Geom) (s : MIState) (e : MIEvent) :
    (updDerived g s e).accelerationPatterns.length
      ≤ s.accelerationPatterns.length + 1 := by
  cases hp : s.positions.getLast? with
  | none => simp [updDerived_none_pos g s e hp]
  | some pp =>
    cases ht : s.timestamps.getLast? with
    | none => simp [updDerived_none_ts g s e ht]
    | some pt =>
      simp only [updDerived, hp, ht]
      split_ifs <;> simp

theorem updDerived_vcs_le (g : Geom) (s : MIState) (e : MIEvent) :
    (updDerived g s e).velocityConsistencyScores.length
      ≤ s.velocityConsistencyScores.length + 1 := by
  cases hp : s.positions.getLast? with
  | none => simp [updDerived_none_pos g s e hp]
  | some pp =>
    cases ht : s.timestamps.getLast? with
    | none => simp [updDerived_none_ts g s e ht]
    | some pt =>
      simp only [updDerived, hp, ht]
      split_ifs <;> simp

@[simp] theorem updStore_positions (s : MIState) (e : MIEvent) :
    (updStore s e).positions = s.positions ++ [⟨e.x, e.y⟩] := rfl

@[simp] theorem updStore_timestamps (s : MIState) (e : MIEvent) :
    (updStore s e).timestamps = s.timestamps ++ [e.t] := rfl

@[simp] theorem updStore_velocities (s : MIState) (e : MIEvent) :
    (updStore s e).velocities = s.velocities := rfl

@[simp] theorem updStore_tb (s : MIState) (e : MIEvent) :
    (updStore s e).timeBetweenMovements = s.timeBetweenMovements := rfl

@[simp] theorem updStore_angles (s : MIState) (e : MIEvent) :
    (updStore s e).movementAngles = s.movementAngles := rfl

@[simp] theorem updStore_accel (s : MIState) (e : MIEvent) :
    (updStore s e).accelerationPatterns = s.accelerationPatterns := rfl

@[simp] theorem updStore_vcs (s : MIState) (e : MIEvent) :
    (updStore s e).velocityConsistencyScores = s.velocityConsistencyScores := rfl

@[simp] theorem updStore_straight (s : MIState) (e : MIEvent) :
    (updStore s e).straightLineSegments = s.straightLineSegments := rfl

@[simp] theorem updStore_curved (s : MIState) (e : MIEvent) :
    (updStore s e).curvedLineSegments = s.curvedLineSegments := rfl

theorem updCap_positions (s : MIState) :
    (updCap s).positions =
      if 200 < s.positions.length then s.positions.tail else s.positions := by
  simp only [updCap]; split <;> rfl

theorem updCap_timestamps (s : MIState) :
    (updCap s).timestamps =
      if 200 < s.positions.length then s.timestamps.tail else s.timestamps := by
  simp only [updCap]; split <;> rfl

theorem updCap_velocities (s : MIState) :
    (updCap s).velocities =
      if 200 < s.positions.length then capList s.velocities else s.velocities := by
  simp only [updCap]; split <;> rfl

theorem updCap_tb (s : MIState) :
    (updCap s).timeBetweenMovements =
      if 200 < s.positions.length then capList s.timeBetweenMovements
      else s.timeBetweenMovements := by
  simp only [updCap]; split <;> rfl

theorem updCap_angles (s : MIState) :
    (updCap s).movementAngles =
      if 200 < s.positions.length then capList s.movementAngles
      else s.movementAngles := by
  simp only [updCap]; split <;> rfl

theorem updCap_accel (s : MIState) :
    (updCap s).accelerationPatterns =
      if 200 < s.positions.length then capList s.accelerationPatterns
      else s.accelerationPatterns := by
  simp only [updCap]; split <;> rfl

theorem updCap_vcs (s : MIState) :
    (updCap s).velocityConsistencyScores =
      if 200 < s.positions.length then capList s.velocityConsistencyScores
      else s.velocityConsistencyScores := by
  simp only [updCap]; split <;> rfl

@[simp] theorem updCap_straight (s : MIState) :
    (updCap s).straightLineSegments = s.straightLineSegments := by
  simp only [updCap]; split <;> rfl

@[simp] theorem updCap_curved (s : MIState) :
    (updCap s).curvedLineSegments = s.curvedLineSegments := by
  simp only [updCap]; split <;> rfl

@[simp] theorem updViewport_positions (s : MIState) (e : MIEvent) :
    (updViewport s e).positions = s.positions := by
  simp only [updViewport]; split <;> rfl

@[simp] theorem updViewport_timestamps (s : MIState) (e : MIEvent) :
    (updViewport s e).timestamps = s.timestamps := by
  simp only [updViewport]; split <;> rfl

@[simp] theorem updViewport_velocities (s : MIState) (e : MIEvent) :
    (updViewport s e).velocities = s.velocities := by
  simp only [updViewport]; split <;> rfl

@[simp] theorem updViewport_tb (s : MIState) (e : MIEvent) :
    (updViewport s e).timeBetweenMovements = s.timeBetweenMovements := by
  simp only [updViewport]; split <;> rfl

@[simp] theorem updViewport_angles (s : MIState) (e : MIEvent) :
    (updViewport s e).movementAngles = s.movementAngles := by
  simp only [updViewport]; split <;> rfl

@[simp] theorem updViewport_accel (s : MIState) (e : MIEvent) :
    (updViewport s e).accelerationPatterns = s.accelerationPatterns := by
  simp only [updViewport]; split <;> rfl

@[simp] theorem updViewport_vcs (s : MIState) (e : MIEvent) :
    (updViewport s e).velocityConsistencyScores = s.velocityConsistencyScores := by
  simp only [updViewport]; split <;> rfl

@[simp] theorem updViewport_straight (s : MIState) (e : MIEvent) :
    (updViewport s e).straightLineSegments = s.straightLineSegments := by
  simp only [updViewport]; split <;> rfl

@[simp] theorem updViewport_curved (s : MIState) (e : MIEvent) :
    (updViewport s e).curvedLineSegments = s.curvedLineSegments := by
  simp only [updViewport]; split <;> rfl

/-! ### The capacity invariant (C5) -/

/-- The window invariant maintained by the handler: timestamps run parallel
to positions, the window holds at most 200 samples, and no parallel
derived-metric list is longer than the window. -/
def MIInv (s : MIState) : Prop :=
  s.timestamps.length = s.positions.length ∧
  s.positions.length ≤ 200 ∧
  s.velocities.length ≤ s.positions.length ∧
  s.timeBetweenMovements.length ≤ s.positions.length ∧
  s.movementAngles.length ≤ s.positions.length ∧
  s.accelerationPatterns.length ≤ s.positions.length ∧
  s.velocityConsistencyScores.length ≤ s.positions.length

theorem capList_length (l : List ℚ) :
    (capList l).length = if 200 < l.length then l.length - 1 else l.length := by
  rw [capList]
  split <;> simp

theorem capList_le200 (l : List ℚ) (h : l.length ≤ 201) : (capList l).length ≤ 200 := by
  rw [capList_length]
  split <;> omega

theorem miStep_inv (g : Geom) (s : MIState) (e : MIEvent) (h : MIInv s) :
    MIInv (miStep g s e) := by
  rw [miStep]
  split
  · obtain ⟨h1, h2, h3, h4, h5, h6, h7⟩ := h
    rw [miIngest]
    generalize hA : updDerived g (updTimeBetween (updPosStats s e) e) e = A
    have hApos : A.positions = s.positions := by
      rw [← hA, updDerived_positions]; simp
    have hAts : A.timestamps = s.timestamps := by
      rw [← hA, updDerived_timestamps]; simp
    have hAvel : A.velocities.length ≤ s.velocities.length + 1 := by
      rw [← hA]
      have := updDerived_vel_le g (updTimeBetween (updPosStats s e) e) e
      simpa using this
    have hAtb : A.timeBetweenMovements.length ≤ s.timeBetweenMovements.length + 1 := by
      rw [← hA, updDerived_tb, updTimeBetween_tb]
      split <;> simp
    have hAan : A.movementAngles.length ≤ s.movementAngles.length + 1 := by
      rw [← hA]
      have := updDerived_angles_le g (updTimeBetween (updPosStats s e) e) e
      simpa using this
    have hAac : A.accelerationPatterns.length ≤ s.accelerationPatterns.length + 1 := by
      rw [← hA]
      have := updDerived_accel_le g (updTimeBetween (updPosStats s e) e) e
      simpa using this
    have hAvc : A.velocityConsistencyScores.length
        ≤ s.velocityConsistencyScores.length + 1 := by
      rw [← hA]
      have := updDerived_vcs_le g (updTimeBetween (updPosStats s e) e) e
      simpa using this
    refine ⟨?_, ?_, ?_, ?_, ?_, ?_, ?_⟩
    · simp only [updViewport_timestamps, updViewport_positions, updCap_timestamps,
        updCap_positions, updStore_timestamps, updStore_positions, hApos, hAts]
      split_ifs <;> simp [h1]
    · simp only [updViewport_positions, updCap_positions, updStore_positions, hApos]
      split_ifs with hc <;>
        simp only [List.length_append, List.length_tail, List.length_cons,
          List.length_nil] at hc ⊢ <;>
        omega
    · simp only [updViewport_velocities, updViewport_positions, updCap_velocities,
        updCap_positions, updStore_velocities, updStore_positions, hApos]
      split_ifs with hc <;>
        simp only [List.length_append, List.length_tail, List.length_cons,
          List.length_nil] at hc ⊢
      · exact le_trans (capList_le200 _ (by omega)) (by omega)
      · omega
    · simp only [updViewport_tb, updViewport_positions, updCap_tb,
        updCap_positions, updStore_tb, updStore_positions, hApos]
      split_ifs with hc <;>
        simp only [List.length_append, List.length_tail, List.length_cons,
          List.length_nil] at hc ⊢
      · exact le_trans (capList_le200 _ (by omega)) (by omega)
      · omega
    · simp only [updViewport_angles, updViewport_positions, updCap_angles,
        updCap_positions, updStore_angles, updStore_positions, hApos]
      split_ifs with hc <;>
        simp only [List.length_append, List.length_tail, List.length_cons,
          List.length_nil] at hc ⊢
      · exact le_trans (capList_le200 _ (by omega)) (by omega)
      · omega
    · simp only [updViewport_accel, updViewport_positions, updCap_accel,
        updCap_positions, updStore_accel, updStore_positions, hApos]
      split_ifs with hc <;>
        simp only [List.length_append, List.length_tail, List.length_cons,
          List.length_nil] at hc ⊢
      · exact le_trans (capList_le200 _ (by omega)) (by omega)
      · omega
    · simp only [updViewport_vcs, updViewport_positions, updCap_vcs,
        updCap_positions, updStore_vcs, updStore_positions, hApos]
      split_ifs with hc <;>
        simp only [List.length_append, List.length_tail, List.length_cons,
          List.length_nil] at hc ⊢
      · exact le_trans (capList_le200 _ (by omega)) (by omega)
      · omega
  · exact h

/-- C5, part 2 helper: shifting after an append drops the head. -/
theorem tail_append_singleton {α : Type} (l : List α) (a : α) (hl : l ≠ []) :
    (l ++ [a]).tail = l.tail ++ [a] := by
  cases l with
  | nil => exact absurd rfl hl
  | cons x xs => rfl

/-- C5: every state reachable from the initial state by ingesting events
keeps the positions window and every parallel derived-metric list at length
at most 200; moreover eviction is FIFO: when an accepted event arrives at a
full (200-sample) window, the stored sequence becomes the old one with its
oldest sample dropped and the new sample appended. -/
theorem window_capacity_invariant :
    (∀ (g : Geom) (evs : List MIEvent),
      (miRun g evs).positions.length ≤ 200 ∧
      (miRun g evs).timestamps.length ≤ 200 ∧
      (miRun g evs).velocities.length ≤ 200 ∧
      (miRun g evs).timeBetweenMovements.length ≤ 200 ∧
      (miRun g evs).movementAngles.length ≤ 200 ∧
      (miRun g evs).accelerationPatterns.length ≤ 200 ∧
      (miRun g evs).velocityConsistencyScores.length ≤ 200) ∧
    (∀ (g : Geom) (s : MIState) (e : MIEvent),
      accepts s e = true → s.positions.length = 200 →
      (miStep g s e).positions = s.positions.tail ++ [⟨e.x, e.y⟩]) := by
  constructor
  · intro g evs
    have hrun : MIInv (miRun g evs) := by
      rw [miRun]
      induction evs using List.reverseRecOn with
      | nil =>
        show MIInv miInit
        refine ⟨rfl, ?_, ?_, ?_, ?_, ?_, ?_⟩ <;> decide
      | append_singleton evs e ih =>
        rw [List.foldl_append, List.foldl_cons, List.foldl_nil]
        exact miStep_inv g _ e ih
    obtain ⟨h1, h2, h3, h4, h5, h6, h7⟩ := hrun
    exact ⟨h2, by omega, by omega, by omega, by omega, by omega, by omega⟩
  · intro g s e hacc hfull
    rw [miStep, if_pos hacc, miIngest]
    have hApos : (updDerived g (updTimeBetween (updPosStats s e) e) e).positions
        = s.positions := by
      rw [updDerived_positions]; simp
    rw [updViewport_positions, updCap_positions, updStore_positions, hApos]
    rw [if_pos (by simp [hfull])]
    exact tail_append_singleton s.positions ⟨e.x, e.y⟩
      (by intro hnil; rw [hnil] at hfull; simp at hfull)

/-- A concrete full window: 200 stored samples. -/
def sFull : MIState :=
  { positions := List.replicate 199 ⟨5, 5⟩ ++ [⟨5, 5⟩],
    timestamps := List.replicate 200 1 }

set_option maxRecDepth 4000 in
/-- C5 witness: the invariant evaluated on a two-event run, and the FIFO
equation applied to a concrete full window of 200 samples. -/
theorem window_capacity_invariant_witness :
    (miRun geom0 [⟨0, 0, 1⟩, ⟨1, 0, 2⟩]).positions.length ≤ 200 ∧
      (miStep geom0 sFull ⟨1, 0, 2⟩).positions = sFull.positions.tail ++ [⟨1, 0⟩] := by
  constructor
  · exact (window_capacity_invariant.1 geom0 [⟨0, 0, 1⟩, ⟨1, 0, 2⟩]).1
  · exact window_capacity_invariant.2 geom0 sFull ⟨1, 0, 2⟩
      (by simp only [accepts, sFull, List.getLast?_concat]; norm_num)
      (by simp [sFull])

/-! ### Duplicate-position drop (C10) -/

/-- C10: a `mousemove` event whose position equals the most recently stored
position returns before any mutation (mouseInteraction.js, lines 134-140):
movement count, position statistics, derived-metric lists and all other
tracking state are unchanged. -/
theorem duplicate_event_is_noop (g : Geom) (s : MIState) (e : MIEvent) (lp : Pt)
    (hl : s.positions.getLast? = some lp) (hx : lp.x = e.x) (hy : lp.y = e.y) :
    miStep g s e = s := by
  have hacc : accepts s e = false := by
    simp [accepts, hl, hx, hy]
  simp [miStep, hacc]

/-- A state holding one stored sample at position `(1,2)`, time `3`. -/
def sOne : MIState :=
  { movements := 1, positions := [⟨1, 2⟩], timestamps := [3], lastMovementTime := 3 }

/-- C10 witness: an event repeating the stored position `(1,2)` leaves the
state untouched. -/
theorem duplicate_event_is_noop_witness : miStep geom0 sOne ⟨1, 2, 9⟩ = sOne :=
  duplicate_event_is_noop geom0 sOne ⟨1, 2, 9⟩ ⟨1, 2⟩ rfl rfl rfl

/-! ### Derived-metric recording (C4) -/

/-- C4 (amended): on an accepted event with room in the window, the
inter-arrival list grows exactly when `lastMovementTime > 0` and the time
difference is strictly positive, and the velocity list grows exactly when a
previous sample exists and the time delta to it is strictly positive —
both otherwise skipped, not zero-filled; but the angle list grows whenever
a previous sample exists, regardless of the time delta
(mouseInteraction.js pushes the angle at line 181, before the
`timeDelta > 0` check at line 187).  The first sample in a window yields no
derived metric. -/
theorem derived_metric_growth (g : Geom) (s : MIState) (e : MIEvent)
    (hacc : accepts s e = true) (hlen : s.positions.length < 200) :
    ((miStep g s e).timeBetweenMovements.length
        = s.timeBetweenMovements.length
          + (if 0 < s.lastMovementTime ∧ 0 < e.t - s.lastMovementTime then 1 else 0)) ∧
      (∀ pp pt, s.positions.getLast? = some pp → s.timestamps.getLast? = some pt →
        (miStep g s e).velocities.length
            = s.velocities.length + (if 0 < e.t - pt then 1 else 0) ∧
          (miStep g s e).movementAngles.length = s.movementAngles.length + 1) ∧
      (s.positions = [] →
        (miStep g s e).velocities = s.velocities ∧
        (miStep g s e).movementAngles = s.movementAngles ∧
        (miStep g s e).accelerationPatterns = s.accelerationPatterns ∧
        (miStep g s e).velocityConsistencyScores = s.velocityConsistencyScores) := by
  rw [miStep, if_pos hacc, miIngest]
  have hApos : (updDerived g (updTimeBetween (updPosStats s e) e) e).positions
      = s.positions := by
    rw [updDerived_positions]; simp
  have hnc : ¬ 200 <
      (updStore (updDerived g (updTimeBetween (updPosStats s e) e) e) e).positions.length := by
    simp [hApos]
    omega
  refine ⟨?_, ?_, ?_⟩
  · rw [updViewport_tb, updCap_tb, if_neg hnc, updStore_tb, updDerived_tb,
      updTimeBetween_tb]
    simp only [updPosStats_tb, updPosStats_lastTime]
    split <;> simp
  · intro pp pt hp ht
    have hp' : (updTimeBetween (updPosStats s e) e).positions.getLast? = some pp := by
      simp [hp]
    have ht' : (updTimeBetween (updPosStats s e) e).timestamps.getLast? = some pt := by
      simp [ht]
    constructor
    · rw [updViewport_velocities, updCap_velocities, if_neg hnc, updStore_velocities,
        updDerived_velocities_some g _ e pp pt hp' ht']
      simp only [updTimeBetween_velocities, updPosStats_velocities]
      split <;> simp
    · rw [updViewport_angles, updCap_angles, if_neg hnc, updStore_angles,
        updDerived_angles_some g _ e pp pt hp' ht']
      simp
  · intro hp0
    have hp' : (updTimeBetween (updPosStats s e) e).positions.getLast? = none := by
      simp [hp0]
    have hder : updDerived g (updTimeBetween (updPosStats s e) e) e
        = updTimeBetween (updPosStats s e) e := updDerived_none_pos g _ e hp'
    refine ⟨?_, ?_, ?_, ?_⟩ <;>
      simp only [updViewport_velocities, updViewport_angles, updViewport_accel,
        updViewport_vcs, updCap_velocities, updCap_angles, updCap_accel, updCap_vcs,
        if_neg hnc, updStore_velocities, updStore_angles, updStore_accel,
        updStore_vcs, hder] <;>
      simp [hp0]

/-- C4 witness: the growth equations applied to `sOne` and an event one
second later at a different position: the inter-arrival and velocity lists
each grow by one, the angle list grows by one; applied to the empty initial
state, the first event records no derived metric. -/
theorem derived_metric_growth_witness :
    (miStep geom0 sOne ⟨4, 6, 4⟩).velocities.length = 1 ∧
      (miStep geom0 sOne ⟨4, 6, 4⟩).movementAngles.length = 1 ∧
      (miStep geom0 sOne ⟨4, 6, 4⟩).timeBetweenMovements.length = 1 ∧
      (miStep geom0 miInit ⟨4, 6, 4⟩).velocities = [] := by
  have h := derived_metric_growth geom0 sOne ⟨4, 6, 4⟩ (by simp [accepts, sOne])
    (by simp [sOne])
  have h0 := derived_metric_growth geom0 miInit ⟨4, 6, 4⟩ (by simp [accepts, miInit])
    (by simp [miInit])
  obtain ⟨htb, hvel, -⟩ := h
  obtain ⟨-, -, hempty⟩ := h0
  obtain ⟨hv, ha⟩ := hvel ⟨1, 2⟩ 3 rfl rfl
  refine ⟨?_, ?_, ?_, ?_⟩
  · rw [hv]
    norm_num [sOne]
  · rw [ha]
    norm_num [sOne]
  · rw [htb]
    norm_num [sOne]
  · exact (hempty rfl).1

/-- C4 counterexample input: a state holding one stored sample at `(0,0)`,
time `5`. -/
def sT : MIState :=
  { movements := 1, positions := [⟨0, 0⟩], timestamps := [5], lastMovementTime := 5 }

/-- C4 counterexample: an accepted event at position `(3,4)` carrying the
same timestamp `5` as the stored sample (time delta `0`, not strictly
positive) still grows the `movementAngles` derived-metric list from 0 to 1
— the angle push at mouseInteraction.js line 181 precedes the
`timeDelta > 0` check — while the velocity list stays unchanged. -/
theorem angle_recorded_without_time_delta :
    sT.timestamps.getLast? = some 5 ∧ (5 : ℚ) - 5 = 0 ∧
      (miStep geom0 sT ⟨3, 4, 5⟩).movementAngles.length
        = sT.movementAngles.length + 1 ∧
      (miStep geom0 sT ⟨3, 4, 5⟩).velocities = sT.velocities := by
  have hacc : accepts sT ⟨3, 4, 5⟩ = true := by simp [accepts, sT]
  have hp' : (updTimeBetween (updPosStats sT ⟨3, 4, 5⟩) ⟨3, 4, 5⟩).positions.getLast?
      = some ⟨0, 0⟩ := by simp [sT]
  have ht' : (updTimeBetween (updPosStats sT ⟨3, 4, 5⟩) ⟨3, 4, 5⟩).timestamps.getLast?
      = some 5 := by simp [sT]
  have hnc : ¬ 200 <
      (updStore (updDerived geom0 (updTimeBetween (updPosStats sT ⟨3, 4, 5⟩) ⟨3, 4, 5⟩)
        ⟨3, 4, 5⟩) ⟨3, 4, 5⟩).positions.length := by
    simp [updDerived_positions, sT]
  refine ⟨rfl, by norm_num, ?_, ?_⟩
  · rw [miStep, if_pos hacc, miIngest, updViewport_angles, updCap_angles, if_neg hnc,
      updStore_angles, updDerived_angles_some geom0 _ _ ⟨0, 0⟩ 5 hp' ht']
    simp
  · rw [miStep, if_pos hacc, miIngest, updViewport_velocities, updCap_velocities,
      if_neg hnc, updStore_velocities,
      updDerived_velocities_some geom0 _ _ ⟨0, 0⟩ 5 hp' ht', if_neg (by norm_num)]
    simp [sT]

/-! ### Collinearity classification (C3) -/

theorem collinearCode_iff_area (p1 p2 p3 : Pt) :
    isCollinearCode p1 p2 p3 = true ↔
      |(triCross p1 p2 p3 : ℝ)| / 2
        < max (Real.sqrt (d2 p1 p2)) (Real.sqrt (d2 p2 p3)) * (1/10) := by
  have hmax : max (Real.sqrt (d2 p1 p2)) (Real.sqrt (d2 p2 p3))
      = Real.sqrt ((max (d2 p1 p2) (d2 p2 p3) : ℚ) : ℝ) := by
    rcases le_total (d2 p1 p2) (d2 p2 p3) with h | h
    · have h' : ((d2 p1 p2 : ℚ) : ℝ) ≤ ((d2 p2 p3 : ℚ) : ℝ) := by exact_mod_cast h
      rw [max_eq_right (Real.sqrt_le_sqrt h'), max_eq_right h]
    · have h' : ((d2 p2 p3 : ℚ) : ℝ) ≤ ((d2 p1 p2 : ℚ) : ℝ) := by exact_mod_cast h
      rw [max_eq_left (Real.sqrt_le_sqrt h'), max_eq_left h]
  rw [hmax]
  have habs : (0:ℝ) ≤ 5 * |(triCross p1 p2 p3 : ℝ)| := by positivity
  have hcast : ((25 * (triCross p1 p2 p3)^2 : ℚ) : ℝ)
      = (5 * |(triCross p1 p2 p3 : ℝ)|)^2 := by
    push_cast
    rw [mul_pow, sq_abs]
    norm_num
  constructor
  · intro h
    have hq : (25 * (triCross p1 p2 p3)^2 : ℚ) < max (d2 p1 p2) (d2 p2 p3) := by
      simp only [isCollinearCode, decide_eq_true_eq] at h
      exact h
    have hr : (5 * |(triCross p1 p2 p3 : ℝ)|)^2
        < ((max (d2 p1 p2) (d2 p2 p3) : ℚ) : ℝ) := by
      rw [← hcast]
      exact Rat.cast_lt.mpr hq
    have := (Real.lt_sqrt habs).mpr hr
    linarith
  · intro h
    have h5 : 5 * |(triCross p1 p2 p3 : ℝ)|
        < Real.sqrt ((max (d2 p1 p2) (d2 p2 p3) : ℚ) : ℝ) := by linarith
    have hr := (Real.lt_sqrt habs).mp h5
    rw [← hcast] at hr
    have hq : (25 * (triCross p1 p2 p3)^2 : ℚ) < max (d2 p1 p2) (d2 p2 p3) :=
      Rat.cast_lt.mp hr
    simp only [isCollinearCode, decide_eq_true_eq]
    exact hq

theorem updDerived_counts (g : Geom) (s : MIState) (e : MIEvent) (pp : Pt) (pt : ℚ)
    (hp : s.positions.getLast? = some pp) (ht : s.timestamps.getLast? = some pt)
    (h3 : 2 < s.positions.length) :
    (updDerived g s e).straightLineSegments
        = s.straightLineSegments +
          (if isCollinearCode (s.positions.getD (s.positions.length - 3) ⟨0, 0⟩)
              (s.positions.getD (s.positions.length - 2) ⟨0, 0⟩) ⟨e.x, e.y⟩
            then 1 else 0) ∧
      (updDerived g s e).curvedLineSegments
        = s.curvedLineSegments +
          (if isCollinearCode (s.positions.getD (s.positions.length - 3) ⟨0, 0⟩)
              (s.positions.getD (s.positions.length - 2) ⟨0, 0⟩) ⟨e.x, e.y⟩
            then 0 else 1) := by
  simp only [updDerived, hp, ht]
  split_ifs <;> simp_all

theorem miStep_counts (g : Geom) (s : MIState) (e : MIEvent) (pp : Pt) (pt : ℚ)
    (hacc : accepts s e = true)
    (hp : s.positions.getLast? = some pp) (ht : s.timestamps.getLast? = some pt)
    (h3 : 2 < s.positions.length) :
    (miStep g s e).straightLineSegments
        = s.straightLineSegments +
          (if isCollinearCode (s.positions.getD (s.positions.length - 3) ⟨0, 0⟩)
              (s.positions.getD (s.positions.length - 2) ⟨0, 0⟩) ⟨e.x, e.y⟩
            then 1 else 0) ∧
      (miStep g s e).curvedLineSegments
        = s.curvedLineSegments +
          (if isCollinearCode (s.positions.getD (s.positions.length - 3) ⟨0, 0⟩)
              (s.positions.getD (s.positions.length - 2) ⟨0, 0⟩) ⟨e.x, e.y⟩
            then 0 else 1) := by
  rw [miStep, if_pos hacc, miIngest]
  rw [updViewport_straight, updViewport_curved, updCap_straight, updCap_curved,
    updStore_straight, updStore_curved]
  have hp' : (updTimeBetween (updPosStats s e) e).positions.getLast? = some pp := by
    simp [hp]
  have ht' : (updTimeBetween (updPosStats s e) e).timestamps.getLast? = some pt := by
    simp [ht]
  have h3' : 2 < (updTimeBetween (updPosStats s e) e).positions.length := by
    simpa using h3
  have h := updDerived_counts g (updTimeBetween (updPosStats s e) e) e pp pt hp' ht' h3'
  simpa using h

/-- C3 (amended): for each ingested point once more than two positions are
stored, the detector forms the triangle from the *third-last* and
*second-last* stored positions together with the incoming point (skipping
the most recently stored position, mouseInteraction.js lines 216-219), and
classifies it as collinear exactly when the triangle area is below
`0.1 × max(adjacent segment lengths)` — with no minimum-movement floor of
any kind — incrementing `straightLineSegments` or `curvedLineSegments`
accordingly, from which the collinear fraction is computable. -/
theorem collinear_classification :
    (∀ p1 p2 p3 : Pt, isCollinearCode p1 p2 p3 = true ↔
      |(triCross p1 p2 p3 : ℝ)| / 2
        < max (Real.sqrt (d2 p1 p2)) (Real.sqrt (d2 p2 p3)) * (1/10)) ∧
    (∀ (g : Geom) (s : MIState) (e : MIEvent) (pp : Pt) (pt : ℚ),
      accepts s e = true →
      s.positions.getLast? = some pp → s.timestamps.getLast? = some pt →
      2 < s.positions.length →
      (miStep g s e).straightLineSegments
          = s.straightLineSegments +
            (if isCollinearCode (s.positions.getD (s.positions.length - 3) ⟨0, 0⟩)
                (s.positions.getD (s.positions.length - 2) ⟨0, 0⟩) ⟨e.x, e.y⟩
              then 1 else 0)) :=
  ⟨collinearCode_iff_area,
   fun g s e pp pt hacc hp ht h3 => (miStep_counts g s e pp pt hacc hp ht h3).1⟩

/-- C3 counterexample input: three stored sub-pixel-spaced collinear
samples. -/
def sSub : MIState :=
  { movements := 3, positions := [⟨0, 0⟩, ⟨1/4, 0⟩, ⟨1/2, 0⟩],
    timestamps := [1, 2, 3], lastMovementTime := 3 }

/-- C3 counterexample: the triple `(0,0)`, `(1/4,0)`, `(3/4,0)` — every
displacement strictly below one pixel, i.e. sub-pixel — is classified
collinear by the code (`straightLineSegments` increments), whereas under
the claim a displacement below the sub-pixel-noise floor (any floor
`≥ 1` pixel) must not be classified collinear: `specCollinear 1` rejects
it.  The code applies no minimum-movement floor. -/
theorem collinear_without_movement_floor :
    isCollinearCode ⟨0, 0⟩ ⟨1/4, 0⟩ ⟨3/4, 0⟩ = true ∧
      specCollinear 1 ⟨0, 0⟩ ⟨1/4, 0⟩ ⟨3/4, 0⟩ = false ∧
      d2 (⟨1/4, 0⟩ : Pt) ⟨3/4, 0⟩ < 1 ∧
      (miStep geom0 sSub ⟨3/4, 0, 4⟩).straightLineSegments = 1 := by
  have hcol : isCollinearCode ⟨0, 0⟩ ⟨1/4, 0⟩ ⟨3/4, 0⟩ = true := by
    norm_num [isCollinearCode, triCross, d2]
  refine ⟨hcol, ?_, by norm_num [d2], ?_⟩
  · norm_num [specCollinear, d2]
  · have h := miStep_counts geom0 sSub ⟨3/4, 0, 4⟩ ⟨1/2, 0⟩ 3
      (by simp [accepts, sSub]; norm_num) (by simp [sSub]) (by simp [sSub])
      (by simp [sSub])
    rw [h.1]
    simp [sSub]
    norm_num [isCollinearCode, triCross, d2]

/-- C3 witness: the counter equation applied to the concrete window `sSub`
and an incoming point, with all hypotheses discharged. -/
theorem collinear_classification_witness :
    (miStep geom0 sSub ⟨9, 9, 4⟩).straightLineSegments
      = sSub.straightLineSegments +
        (if isCollinearCode (sSub.positions.getD (sSub.positions.length - 3) ⟨0, 0⟩)
            (sSub.positions.getD (sSub.positions.length - 2) ⟨0, 0⟩) ⟨9, 9⟩
          then 1 else 0) :=
  collinear_classification.2 geom0 sSub ⟨9, 9, 4⟩ ⟨1/2, 0⟩ 3
    (by simp [accepts, sSub]) (by simp [sSub]) (by simp [sSub])
    (by simp [sSub])

/-! ## BotDetector: the periodic analysis cycle (C9)

`_analyzeAndUpdateResults` (part_002, lines 148-232) gates on
`movements < minimumSamples`, then runs `_analyzeForBotPatterns`
(lines 237-342), `_calculateBotLikelihood` (lines 348-505) and
`_calculateOverallScore` over the current `mouseData`.  The mouseData
fields are read-only inputs of the cycle; the cycle writes
`suspiciousPatterns` and `detectionScores`.  Fields used only for UI output
(`minAngle`/`maxAngle`/`sumAngle`, position sums) are omitted. -/

/-- The `this.mouseData` fields of `BotDetector` that the analysis cycle
reads. -/
structure BDMouseData where
  movements : ℕ := 0
  positions : List Pt := []
  timestamps : List ℚ := []
  velocities : List ℚ := []
  angles : List ℚ := []
  timeBetweenMovements : List ℚ := []
  minVelocity : ℚ := 0
  maxVelocity : ℚ := 0
  sumVelocity : ℚ := 0
  minTimeBetween : ℚ := 0
  maxTimeBetween : ℚ := 0
deriving DecidableEq, Repr

/-- `this.suspiciousPatterns` (part_002, lines 50-58), restricted to the
fields the cycle touches. -/
@[ext] structure SuspiciousPatterns where
  perfectStraightLines : ℕ := 0
  consistentVelocity : Bool := false
  consistentAngles : Bool := false
  consistentTimeBetween : Bool := false
  unnaturalMovement : Bool := false
deriving DecidableEq, Repr

/-- `avgVelocity` as computed in `_analyzeAndUpdateResults`
(part_002, lines 159-160). -/
def avgVelocity (d : BDMouseData) : ℚ :=
  if d.velocities = [] then 0 else d.sumVelocity / (d.velocities.length : ℚ)

/-- The straight-line counting loop of `_analyzeForBotPatterns`
(part_002, lines 252-286): over consecutive (angle, position) pairs, count
the steps with displacement above `MIN_MOVEMENT_DISTANCE = 10` pixels
(compared squared: `100 < dsq`) whose angle difference is within
`angleVariance = 8` degrees of 0 or 180. -/
def straightLineCount (d : BDMouseData) : ℕ :=
  match d.angles.zip d.positions with
  | [] => 0
  | x :: t =>
    (t.foldl
      (fun (acc : ℕ × (ℚ × Pt)) cur =>
        let diff := |cur.1 - acc.2.1|
        let dsq := (cur.2.x - acc.2.2.x)^2 + (cur.2.y - acc.2.2.y)^2
        (acc.1 + (if 100 < dsq ∧ (diff < 8 ∨ 172 < diff) then 1 else 0), cur))
      (0, x)).1

/-- `BotDetector._analyzeForBotPatterns` (part_002, lines 237-342); each
`suspiciousPatterns` field is updated only when its guard holds, otherwise
it keeps its previous value. -/
def analyzeForBotPatterns (d : BDMouseData) (p : SuspiciousPatterns) :
    SuspiciousPatterns :=
  let p1 :=
    if 0 < d.minVelocity ∧ 0 < avgVelocity d then
      { p with consistentVelocity := decide (97/100 < d.minVelocity / d.maxVelocity) }
    else p
  let p2 :=
    if d.angles = [] then p1
    else
      let c := straightLineCount d
      let pct := (c : ℚ) / (d.angles.length : ℚ) * 100
      if 45 < pct ∧ 50 ≤ d.angles.length then
        { p1 with consistentAngles := true, perfectStraightLines := c }
      else if p1.consistentAngles then
        { p1 with consistentAngles := false, perfectStraightLines := 0 }
      else p1
  let p3 :=
    if d.timeBetweenMovements = [] then p2
    else
      { p2 with consistentTimeBetween :=
          decide (97/100 < d.minTimeBetween / d.maxTimeBetween) }
  if 0 < avgVelocity d ∧ 0 < d.minVelocity then
    { p3 with unnaturalMovement :=
        decide (|d.maxVelocity - d.minVelocity| / avgVelocity d < 1/20) }
  else p3

/-- Loop accumulator of the consecutive-straight-segment scan in
`_calculateBotLikelihood` (part_002, lines 424-471). -/
structure ConsecAcc where
  cc : ℕ := 0
  maxc : ℕ := 0
  highSpeed : Bool := false
  totalDist : ℚ := 0
deriving DecidableEq, Repr

/-- One iteration of the consecutive-straight-segment scan, against the
previous (angle, position, timestamp) triple. -/
def consecStep (g : Geom) (acc : ConsecAcc) (prev cur : ℚ × Pt × ℚ) : ConsecAcc :=
  let diff := |cur.1 - prev.1|
  let dist := g.sqrtQ ((cur.2.1.x - prev.2.1.x)^2 + (cur.2.1.y - prev.2.1.y)^2)
  let td := cur.2.2 - prev.2.2
  let speed := if 0 < td then dist / td else 0
  let totalDist := acc.totalDist + dist
  if 10 < dist ∧ (diff < 8 ∨ 172 < diff) then
    { cc := acc.cc + 1, maxc := max acc.maxc (acc.cc + 1),
      highSpeed := if 1/2 < speed then true else acc.highSpeed,
      totalDist := totalDist }
  else
    { cc := 0, maxc := acc.maxc, highSpeed := acc.highSpeed, totalDist := totalDist }

/-- The consecutive-straight-segment scan: the first triple seeds the
previous values (part_002, lines 427-429), the loop runs over the rest. -/
def consecLoop (g : Geom) (l : List (ℚ × Pt × ℚ)) : ConsecAcc :=
  match l with
  | [] => {}
  | x :: t =>
    (t.foldl (fun (acc : ConsecAcc × (ℚ × Pt × ℚ)) cur =>
      (consecStep g acc.1 acc.2 cur, cur)) ({}, x)).1

/-- `BotDetector._calculateBotLikelihood` (part_002, lines 348-505):
accumulate per-factor scores and the count of factors checked, then return
`score / factorsChecked` (0 when no factor was checked).  In reachable
states the `angles`, `positions` and `timestamps` lists run in parallel;
the zip truncates to the shortest. -/
def calculateBotLikelihood (g : Geom) (d : BDMouseData) (p : SuspiciousPatterns) : ℚ :=
  let acc : ℚ × ℕ := (0, 0)
  let acc :=
    if d.velocities = [] then acc
    else
      (acc.1 + (if p.consistentVelocity then 1
        else 1 - min ((d.maxVelocity - d.minVelocity)
            / (d.maxVelocity + d.minVelocity) * 2) 1),
       acc.2 + 1)
  let acc :=
    if d.angles = [] then acc
    else
      (acc.1 + (if p.consistentAngles then
          (let pct := (p.perfectStraightLines : ℚ) / (d.angles.length : ℚ) * 100
           if 60 < pct ∧ 50 ≤ d.angles.length then 4/5
           else if 45 < pct ∧ 50 ≤ d.angles.length then 1/2
           else 3/10)
        else 0),
       acc.2 + 1)
  let acc :=
    if d.timeBetweenMovements = [] then acc
    else
      (acc.1 + (if p.consistentTimeBetween then 1
        else 1 - min ((d.maxTimeBetween - d.minTimeBetween)
            / (d.maxTimeBetween + d.minTimeBetween) * 2) 1),
       acc.2 + 1)
  let acc :=
    if 20 < d.angles.length then
      let r := consecLoop g (d.angles.zip (d.positions.zip d.timestamps))
      let cScore : ℚ :=
        if 20 ≤ r.maxc ∧ r.highSpeed = true ∧ 500 < r.totalDist then 9/10
        else if 15 ≤ r.maxc ∧ r.highSpeed = true then 7/10
        else if 25 ≤ r.maxc then 1/2
        else 0
      (acc.1 + cScore, acc.2 + 1)
    else acc
  if 0 < acc.2 then acc.1 / (acc.2 : ℚ) else 0

/-- The state the analysis cycle writes back: the ungated body of
`_analyzeAndUpdateResults`. -/
def analyzeCycleCore (g : Geom) (d : BDMouseData)
    (st : SuspiciousPatterns × DetectionScores) :
    SuspiciousPatterns × DetectionScores :=
  let p := analyzeForBotPatterns d st.1
  let m := calculateBotLikelihood g d p
  let ds := { st.2 with mousePatterns := some m }
  (p, { ds with overallScore := calculateOverallScore ds })

/-- `_analyzeAndUpdateResults` (part_002, lines 148-232): below
`minimumSamples` movements nothing is recomputed. -/
def analyzeCycle (g : Geom) (d : BDMouseData)
    (st : SuspiciousPatterns × DetectionScores) :
    SuspiciousPatterns × DetectionScores :=
  if d.movements < minimumSamples then st else analyzeCycleCore g d st

theorem analyzeFBP_cv (d : BDMouseData) (p : SuspiciousPatterns) :
    (analyzeForBotPatterns d p).consistentVelocity =
      if 0 < d.minVelocity ∧ 0 < avgVelocity d
      then decide (97/100 < d.minVelocity / d.maxVelocity)
      else p.consistentVelocity := by
  simp only [analyzeForBotPatterns]
  split_ifs <;> rfl

theorem analyzeFBP_ca (d : BDMouseData) (p : SuspiciousPatterns) :
    (analyzeForBotPatterns d p).consistentAngles =
      if d.angles = [] then p.consistentAngles
      else decide (45 < (straightLineCount d : ℚ) / (d.angles.length : ℚ) * 100
        ∧ 50 ≤ d.angles.length) := by
  simp only [analyzeForBotPatterns]
  split_ifs <;> simp_all

theorem analyzeFBP_psl (d : BDMouseData) (p : SuspiciousPatterns) :
    (analyzeForBotPatterns d p).perfectStraightLines =
      if d.angles = [] then p.perfectStraightLines
      else if 45 < (straightLineCount d : ℚ) / (d.angles.length : ℚ) * 100
          ∧ 50 ≤ d.angles.length then straightLineCount d
      else if p.consistentAngles then 0
      else p.perfectStraightLines := by
  simp only [analyzeForBotPatterns]
  split_ifs <;> simp_all

theorem analyzeFBP_ct (d : BDMouseData) (p : SuspiciousPatterns) :
    (analyzeForBotPatterns d p).consistentTimeBetween =
      if d.timeBetweenMovements = [] then p.consistentTimeBetween
      else decide (97/100 < d.minTimeBetween / d.maxTimeBetween) := by
  simp only [analyzeForBotPatterns]
  split_ifs <;> rfl

theorem analyzeFBP_um (d : BDMouseData) (p : SuspiciousPatterns) :
    (analyzeForBotPatterns d p).unnaturalMovement =
      if 0 < avgVelocity d ∧ 0 < d.minVelocity
      then decide (|d.maxVelocity - d.minVelocity| / avgVelocity d < 1/20)
      else p.unnaturalMovement := by
  simp only [analyzeForBotPatterns]
  split_ifs <;> rfl

theorem analyzeForBotPatterns_idem (d : BDMouseData) (p : SuspiciousPatterns) :
    analyzeForBotPatterns d (analyzeForBotPatterns d p) = analyzeForBotPatterns d p := by
  ext : 1
  · by_cases hA : d.angles = []
    · simp [analyzeFBP_psl, analyzeFBP_ca, hA]
    · by_cases hB : 45 < (straightLineCount d : ℚ) / (d.angles.length : ℚ) * 100
          ∧ 50 ≤ d.angles.length
      · simp [analyzeFBP_psl, analyzeFBP_ca, hA, hB]
      · simp [analyzeFBP_psl, analyzeFBP_ca, hA, hB]
  · rw [analyzeFBP_cv, analyzeFBP_cv]
    split_ifs <;> rfl
  · rw [analyzeFBP_ca, analyzeFBP_ca]
    split_ifs <;> rfl
  · rw [analyzeFBP_ct, analyzeFBP_ct]
    split_ifs <;> rfl
  · rw [analyzeFBP_um, analyzeFBP_um]
    split_ifs <;> rfl

theorem analyzeCycleCore_idem (g : Geom) (d : BDMouseData)
    (st : SuspiciousPatterns × DetectionScores) :
    analyzeCycleCore g d (analyzeCycleCore g d st) = analyzeCycleCore g d st := by
  rcases st with ⟨p, ds⟩
  rcases ds with ⟨a1, a2, a3, a4, a5, a6, a7, a8, ov⟩
  simp only [analyzeCycleCore, analyzeForBotPatterns_idem]
  simp [calculateOverallScore, scoreEntries, getScore, factorOrder]

/-- C9 (amended, part 1): the BotDetector analysis cycle is idempotent —
re-running `_analyzeForBotPatterns` → `_calculateBotLikelihood` →
`_calculateOverallScore` over an unchanged `mouseData` window reproduces
the identical `suspiciousPatterns` and `detectionScores`. -/
theorem botCycle_idempotent (g : Geom) (d : BDMouseData)
    (st : SuspiciousPatterns × DetectionScores) :
    analyzeCycle g d (analyzeCycle g d st) = analyzeCycle g d st := by
  by_cases hlt : d.movements < minimumSamples
  · simp [analyzeCycle, hlt]
  · simp only [analyzeCycle, if_neg hlt]
    exact analyzeCycleCore_idem g d st

/-! ## RemoteDesktopDetector._analyzeMouseMovement
(src/js/detectors/remoteDesktopDetector.js, lines 172-228)

The analyzer re-scans the whole `mousePoints` window on every call and
*adds* the classification of every triple to the persistent instance
counters `straightLineCount` / `naturalMovementCount`, which are never
reset between analyses.  The reported patterns are recomputed from the
accumulated counters, gated on `totalMovements < 30`. -/

/-- A point of `this.mousePoints`: `clientX`, `clientY`,
`performance.now()`. -/
structure RDPoint where
  x : ℚ
  y : ℚ
  time : ℚ
deriving DecidableEq, Repr

/-- `this.results.mousePatterns`: the straight-line share (source field
name: `straightLineRatio`) and the consistent-velocity flag. -/
structure RDPatterns where
  straightLineShare : ℚ := 0
  consistentVelocity : Bool := false
deriving DecidableEq, Repr

/-- The `RemoteDesktopDetector` state `_analyzeMouseMovement` touches. -/
structure RDState where
  mousePoints : List RDPoint := []
  straightLineCount : ℕ := 0
  naturalMovementCount : ℕ := 0
  results : RDPatterns := {}
deriving DecidableEq, Repr

/-- Loop accumulator of the triple scan (lines 175-206). -/
structure RDAcc where
  straight : ℕ := 0
  natural : ℕ := 0
  consistent : Bool := true
  prevVel : Option ℚ := none
deriving DecidableEq, Repr

/-- One iteration of the triple scan (lines 180-206): triangle-area
collinearity against the fixed `areaTolerance = 2.0`, and the velocity
consistency check with `velocityToleranceFactor = 0.3`.  The source also
computes `velocity2` (line 190) but never uses it. -/
def rdTripleStep (g : Geom) (acc : RDAcc) (tri : RDPoint × RDPoint × RDPoint) : RDAcc :=
  let p1 := tri.1
  let p2 := tri.2.1
  let p3 := tri.2.2
  let area := |p1.x * (p2.y - p3.y) + p2.x * (p3.y - p1.y) + p3.x * (p1.y - p2.y)| / 2
  let isStraight : Bool := area < 2
  let v1 := g.sqrtQ ((p2.x - p1.x)^2 + (p2.y - p1.y)^2) / (p2.time - p1.time)
  let consistent :=
    match acc.prevVel with
    | some pv => if 3/10 < |v1 - pv| / max v1 pv then false else acc.consistent
    | none => acc.consistent
  { straight := acc.straight + (if isStraight then 1 else 0),
    natural := acc.natural + (if isStraight then 0 else 1),
    consistent := consistent, prevVel := some v1 }

/-- The consecutive triples `(points[i-2], points[i-1], points[i])` for
`i = 2 … length-1`. -/
def rdTriples (l : List RDPoint) : List (RDPoint × RDPoint × RDPoint) :=
  l.zip (l.tail.zip l.tail.tail)

/-- `RemoteDesktopDetector._analyzeMouseMovement` (lines 172-228): scan all
triples of the current window, *add* the tallies to the persistent
counters, and recompute `results.mousePatterns` from the accumulated
totals (zeroed below the 30-sample minimum). -/
def analyzeMouseMovement (g : Geom) (s : RDState) : RDState :=
  let r := (rdTriples s.mousePoints).foldl (rdTripleStep g) {}
  let slc := s.straightLineCount + r.straight
  let nmc := s.naturalMovementCount + r.natural
  let total := slc + nmc
  let results :=
    if 0 < total then
      if total < 30 then { straightLineShare := 0, consistentVelocity := false }
      else { straightLineShare := (slc : ℚ) / (total : ℚ),
             consistentVelocity := r.consistent }
    else s.results
  { s with straightLineCount := slc, naturalMovementCount := nmc, results := results }

/-- A reachable mid-session window: 17 points moving uniformly along the
x-axis (one pixel per millisecond), with counters `(13, 0)` accumulated by
an earlier analysis pass over the first 15 points (13 triples).  On the
inputs that occur in this computation, `geom0`'s square root agrees with
the real one (`√1 = 1`). -/
def rdMid : RDState :=
  { mousePoints :=
      [⟨0, 0, 0⟩, ⟨1, 0, 1⟩, ⟨2, 0, 2⟩, ⟨3, 0, 3⟩, ⟨4, 0, 4⟩, ⟨5, 0, 5⟩,
       ⟨6, 0, 6⟩, ⟨7, 0, 7⟩, ⟨8, 0, 8⟩, ⟨9, 0, 9⟩, ⟨10, 0, 10⟩, ⟨11, 0, 11⟩,
       ⟨12, 0, 12⟩, ⟨13, 0, 13⟩, ⟨14, 0, 14⟩, ⟨15, 0, 15⟩, ⟨16, 0, 16⟩],
    straightLineCount := 13, naturalMovementCount := 0 }

/-- C9 counterexample: `_analyzeMouseMovement` is not idempotent.  Running
it once over the unchanged 17-point window of `rdMid` accumulates
`13 + 15 = 28 < 30` counted segments, so it reports
`straightLineRatio = 0` ("not enough data"); running it a second time over
the *same unchanged window* re-counts the same 15 triples, crosses the
30-sample gate (`43`), and reports ratio `1` with the consistent-velocity
flag set — a different assessment. -/
theorem rd_analysis_not_idempotent :
    (analyzeMouseMovement geom0 (analyzeMouseMovement geom0 rdMid)).results
        ≠ (analyzeMouseMovement geom0 rdMid).results ∧
      (analyzeMouseMovement geom0 rdMid).results.straightLineShare = 0 ∧
      (analyzeMouseMovement geom0
          (analyzeMouseMovement geom0 rdMid)).results.straightLineShare = 1 := by
  have h1 : analyzeMouseMovement geom0 rdMid
      = { rdMid with straightLineCount := 28,
                     results := { straightLineShare := 0, consistentVelocity := false } } := by
    norm_num [analyzeMouseMovement, rdTriples, rdTripleStep, rdMid, geom0]
  have h2 : analyzeMouseMovement geom0
        { rdMid with straightLineCount := 28,
                     results := { straightLineShare := 0, consistentVelocity := false } }
      = { rdMid with straightLineCount := 43,
                     results := { straightLineShare := 1, consistentVelocity := true } } := by
    norm_num [analyzeMouseMovement, rdTriples, rdTripleStep, rdMid, geom0]
  rw [h1, h2]
  norm_num

end HoneypotAuth
